import Mathlib

/-!
# sshtunnel: a shallow embedding of `main.go`

The program is a single Go file with three functions: `main`, `handleConnection`
and `agentAuth`.  Every interesting step is a call into the operating system or a
library, so the embedding threads an explicit *world* (the answers the outside gives
to those calls) through the code and records the calls made as a trace of events.

* `agentAuth` and `main` are sequential: each is a function from the world to the
  trace of calls it makes together with its outcome.
* `handleConnection` starts two goroutines and returns; it is embedded as a step
  function on a state holding the program counter of each of the three goroutines,
  and a run is the fold of that step function over a schedule.

Library functions are embedded from their documented behaviour (`filepath.Join`,
`filepath.Clean`, `io.Copy`, `yaml.Unmarshal`, `log.Fatalf`).
-/

namespace SshTunnel

/-! ## Basic data -/

/-- Byte sequences (`[]byte`); a byte is kept as a natural number. -/
abbrev Bytes := List Nat

/-- Go `error` values, kept as their message. -/
abbrev GoError := String

/-- What `user.Current()` returns: only `HomeDir` is used by the program. -/
structure User where
  homeDir : String
  deriving DecidableEq, Repr

/-- An identity held by the agent (`ssh.Signer`), kept as its name. -/
abbrev Signer := String

/-- The value `ssh.PublicKeys(signers...)` builds: it wraps the signers it was given. -/
inductive AuthMethod where
  | publicKeys (signers : List Signer)
  deriving DecidableEq, Repr

/-! ## `path/filepath` (Unix) -/

/-- Cut a path at every `/`; the pieces may be empty. -/
def splitSlash : List Char → List (List Char)
  | [] => [[]]
  | c :: cs =>
    if c = '/' then [] :: splitSlash cs
    else
      match splitSlash cs with
      | [] => [[c]]
      | e :: es => (c :: e) :: es

/-- One round of the loop of `Clean` on the path element `e`; `out` is the output
built so far, last element first.  Empty elements and `.` are dropped, `..` removes
the element before it when there is one that is not itself `..`, is dropped at the
root of a rooted path, and is kept otherwise. -/
def cleanElem (rooted : Bool) (out : List (List Char)) (e : List Char) : List (List Char) :=
  if e = [] ∨ e = ['.'] then out
  else if e = ['.', '.'] then
    match out with
    | top :: rest => if top = ['.', '.'] then e :: out else rest
    | [] => if rooted then [] else [e]
  else e :: out

/-- Put `/` between the elements. -/
def joinSlash : List (List Char) → List Char
  | [] => []
  | [e] => e
  | e :: es => e ++ '/' :: joinSlash es

/-- The function `Clean` on the characters of a path. -/
def cleanChars (path : List Char) : List Char :=
  match path with
  | [] => ['.']
  | c :: _ =>
    let rooted := c == '/'
    let out := (splitSlash path).foldl (cleanElem rooted) []
    if rooted then '/' :: joinSlash out.reverse
    else if out = [] then ['.'] else joinSlash out.reverse

/-- The function `filepath.Clean`. -/
def filepathClean (path : String) : String := String.mk (cleanChars path.data)

/-- The function `filepath.Join`: empty leading elements are ignored, the rest is
joined with `/` and cleaned; the result is empty when every element is. -/
def filepathJoin : List String → String
  | [] => ""
  | e :: rest =>
    if e = "" then filepathJoin rest
    else filepathClean ("/".intercalate (e :: rest))

/-- The call `fmt.Sprintf("%s:%d", host, port)`. -/
def hostPort (host : String) (port : Int) : String := host ++ ":" ++ toString port

/-! ## Events and the world -/

/-- The connections the program closes explicitly. -/
inductive Handle where
  | agentConn
  | target
  | accepted
  deriving DecidableEq, Repr

/-- The two relay goroutines of `handleConnection`. -/
inductive Dir where
  /-- The goroutine `io.Copy(conn, target)`. -/
  | targetToAccepted
  /-- The goroutine `io.Copy(target, conn)`. -/
  | acceptedToTarget
  deriving DecidableEq, Repr

/-- The configuration struct `Config`, the inner struct `Database` flattened. -/
structure Config where
  sshHostname : String
  sshPort : Int
  sshUsername : String
  atpHostname : String
  atpPort : Int
  atpUsername : String
  atpWalletPath : String
  atpWalletName : String
  atpPassword : String
  deriving DecidableEq, Repr

/-- The arguments of one `go handleConnection(conn, wallet, ymlconfig)`. -/
structure ForwardTask where
  conn : Nat
  wallet : Bytes
  ymlconfig : Config
  deriving DecidableEq, Repr

/-- The calls the program makes, with what came back where the program looks at it. -/
inductive Event where
  | readFile (path : String) (ok : Bool)
  | yamlUnmarshal (ok : Bool)
  | userCurrent (ok : Bool)
  | netDial (network address : String) (ok : Bool)
  | agentSigners (ok : Bool)
  | close (h : Handle)
  | sshDial (network address user : String) (auth : AuthMethod) (ok : Bool)
  | sshListen (network address : String) (ok : Bool)
  | logPrintln (msg : String)
  | accept (ok : Bool)
  | goHandle (task : ForwardTask)
  | write (h : Handle) (data : Bytes) (ok : Bool)
  | goRelay (d : Dir)
  | copyReturn (d : Dir) (ok : Bool)
  | fatal (msg : String)
  deriving DecidableEq, Repr

/-! ## `agentAuth` -/

/-- The answers the outside gives to the calls of `agentAuth`. -/
structure AgentWorld where
  /-- The call `user.Current()`. -/
  userCurrent : Except GoError User
  /-- The call `net.Dial("unix", socketPath)`. -/
  dialUnix : String → Except GoError Unit
  /-- The call `agentClient.Signers()`. -/
  signers : Except GoError (List Signer)

/-- The socket path `agentAuth` computes from the home directory. -/
def agentSocketPath (homeDir : String) : String :=
  filepathJoin [homeDir, ".ssh", "agent.sock"]

/-- The function `agentAuth`: the calls it makes and what it returns.  The deferred
`conn.Close()` runs on both returns that follow a successful dial. -/
def agentAuth (w : AgentWorld) : List Event × Except GoError AuthMethod :=
  match w.userCurrent with
  | .error e => ([.userCurrent false], .error e)
  | .ok usr =>
    let socketPath := agentSocketPath usr.homeDir
    match w.dialUnix socketPath with
    | .error e => ([.userCurrent true, .netDial "unix" socketPath false], .error e)
    | .ok _ =>
      match w.signers with
      | .error e =>
        ([.userCurrent true, .netDial "unix" socketPath true, .agentSigners false,
          .close .agentConn], .error e)
      | .ok signers =>
        ([.userCurrent true, .netDial "unix" socketPath true, .agentSigners true,
          .close .agentConn], .ok (.publicKeys signers))

/-- The number of connections a trace opens with `net.Dial`. -/
def opened (tr : List Event) : Nat :=
  (tr.filter fun e => match e with
    | .netDial _ _ true => true
    | _ => false).length

/-- The number of times a trace closes the handle `h`. -/
def closed (h : Handle) (tr : List Event) : Nat := tr.count (.close h)

/-- The addresses a trace dials on the network `network`. -/
def dialed (network : String) (tr : List Event) : List String :=
  tr.filterMap fun e => match e with
    | .netDial n a _ => if n = network then some a else none
    | _ => none

/-! ## `yaml.Unmarshal` into `Config` -/

/-- A parsed YAML document, as far as the program can tell documents apart. -/
inductive Yaml where
  | null
  | str (s : String)
  | int (i : Int)
  | map (kvs : List (String × Yaml))

/-- A struct field as `yaml.v2` sees it: the Go name and the key of its `yaml` tag. -/
structure FieldSpec where
  goName : String
  key : String
  deriving DecidableEq, Repr

/-- The fields of `Config`, in declaration order. -/
def configFields : List FieldSpec :=
  [⟨"sshHostname", "ssh_hostname"⟩, ⟨"sshPort", "ssh_port"⟩,
   ⟨"sshUsername", "ssh_username"⟩, ⟨"Database", "database"⟩]

/-- The fields of the inner struct `Database`, in declaration order. -/
def databaseFields : List FieldSpec :=
  [⟨"atpHostname", "atp_hostname"⟩, ⟨"atpPort", "atp_port"⟩,
   ⟨"atpUsername", "atp_username"⟩, ⟨"atpWalletPath", "atp_wallet_path"⟩,
   ⟨"atpWalletName", "atp_wallet_name"⟩, ⟨"atpPassword", "atp_password"⟩]

/-- A Go identifier is exported when it starts with an upper case letter. -/
def isExported (goName : String) : Bool := goName.front.isUpper

/-- The value `yaml.v2` decodes into a struct field from a mapping: struct fields
are only unmarshalled if they are exported, and then from the key of their tag. -/
def fieldValue (f : FieldSpec) (kvs : List (String × Yaml)) : Option Yaml :=
  if isExported f.goName then kvs.lookup f.key else none

/-- Decode into a `string` field holding `old`. -/
def decodeString (old : String) : Option Yaml → Except GoError String
  | none => .ok old
  | some .null => .ok ""
  | some (.str s) => .ok s
  | some (.int i) => .ok (toString i)
  | some (.map _) => .error "yaml: cannot unmarshal !!map into string"

/-- Decode into an `int` field holding `old`. -/
def decodeInt (old : Int) : Option Yaml → Except GoError Int
  | none => .ok old
  | some .null => .ok 0
  | some (.int i) => .ok i
  | some (.str _) => .error "yaml: cannot unmarshal !!str into int"
  | some (.map _) => .error "yaml: cannot unmarshal !!map into int"

/-- The zero value of `Config` (`var ymlconfig Config`). -/
def Config.zero : Config := ⟨"", 0, "", "", 0, "", "", "", ""⟩

/-- The field of `fields` with the Go name `goName`. -/
def fieldNamed (fields : List FieldSpec) (goName : String) : FieldSpec :=
  (fields.find? fun f => f.goName = goName).getD ⟨goName, goName⟩

/-- Decode the mapping under `database` into the fields of the inner struct. -/
def decodeDatabase (c : Config) (kvs : List (String × Yaml)) : Except GoError Config := do
  let h ← decodeString c.atpHostname (fieldValue (fieldNamed databaseFields "atpHostname") kvs)
  let p ← decodeInt c.atpPort (fieldValue (fieldNamed databaseFields "atpPort") kvs)
  let u ← decodeString c.atpUsername (fieldValue (fieldNamed databaseFields "atpUsername") kvs)
  let wp ← decodeString c.atpWalletPath
    (fieldValue (fieldNamed databaseFields "atpWalletPath") kvs)
  let wn ← decodeString c.atpWalletName
    (fieldValue (fieldNamed databaseFields "atpWalletName") kvs)
  let pw ← decodeString c.atpPassword (fieldValue (fieldNamed databaseFields "atpPassword") kvs)
  pure { c with atpHostname := h, atpPort := p, atpUsername := u, atpWalletPath := wp,
                atpWalletName := wn, atpPassword := pw }

/-- Decode a document into a `Config` holding `c`: the call `yaml.Unmarshal(content,
&ymlconfig)` once the document is parsed. -/
def decodeConfig (c : Config) : Yaml → Except GoError Config
  | .null => .ok c
  | .str _ => .error "yaml: cannot unmarshal !!str into main.Config"
  | .int _ => .error "yaml: cannot unmarshal !!int into main.Config"
  | .map kvs => do
    let h ← decodeString c.sshHostname (fieldValue (fieldNamed configFields "sshHostname") kvs)
    let p ← decodeInt c.sshPort (fieldValue (fieldNamed configFields "sshPort") kvs)
    let u ← decodeString c.sshUsername (fieldValue (fieldNamed configFields "sshUsername") kvs)
    let c1 := { c with sshHostname := h, sshPort := p, sshUsername := u }
    match fieldValue (fieldNamed configFields "Database") kvs with
    | none => pure c1
    | some .null => pure c1
    | some (.map dkvs) => decodeDatabase c1 dkvs
    | some (.str _) => .error "yaml: cannot unmarshal !!str into struct"
    | some (.int _) => .error "yaml: cannot unmarshal !!int into struct"

/-! ## `main` -/

/-- The answers the outside gives to the calls of `main`. -/
structure World where
  /-- The call `os.ReadFile(path)`. -/
  readFile : String → Except GoError Bytes
  /-- The YAML document the bytes of the configuration file parse to. -/
  yamlParse : Bytes → Except GoError Yaml
  /-- The answers to the calls of `agentAuth`. -/
  agent : AgentWorld
  /-- The call `ssh.Dial(network, address, config)` with `config.User` and
  `config.Auth`. -/
  sshDial : String → String → String → AuthMethod → Except GoError Unit
  /-- The call `conn.Listen(network, address)`. -/
  sshListen : String → String → Except GoError Unit
  /-- What the successive calls of `listener.Accept()` return: an error or the next
  stream.  After the last entry `Accept` does not return any more. -/
  accepts : List (Except GoError Nat)

/-- How a goroutine ends: in `log.Fatalf`, which exits the process, or blocked for
good in `listener.Accept()`. -/
inductive Outcome where
  | fatal (msg : String)
  | waiting
  deriving DecidableEq, Repr

/-- The call `log.Fatalf(msg)` after the calls `tr`. -/
def fatalf (tr : List Event) (msg : String) : List Event × Outcome :=
  (tr ++ [.fatal msg], .fatal msg)

/-- The accept loop of `main`. -/
def acceptLoop (wallet : Bytes) (ymlconfig : Config) :
    List (Except GoError Nat) → List Event × Outcome
  | [] => ([], .waiting)
  | .error e :: _ => fatalf [.accept false] ("Failed to accept connection: " ++ e)
  | .ok conn :: rest =>
    let r := acceptLoop wallet ymlconfig rest
    (.accept true :: .goHandle ⟨conn, wallet, ymlconfig⟩ :: r.1, r.2)

/-- The body of `main` up to the accept loop: the calls it makes, and either the
message of the `log.Fatalf` that ended it or the wallet bytes and the configuration
the loop runs with. -/
def startup (w : World) : List Event × Except String (Bytes × Config) :=
  match w.readFile "tunnel.yaml" with
  | .error e =>
    let msg := "Failed to read YAML file: " ++ e
    ([.readFile "tunnel.yaml" false, .fatal msg], .error msg)
  | .ok content =>
  let tr1 := [Event.readFile "tunnel.yaml" true]
  match (w.yamlParse content).bind (decodeConfig Config.zero) with
  | .error e =>
    let msg := "Failed to parse YAML: " ++ e
    (tr1 ++ [.yamlUnmarshal false, .fatal msg], .error msg)
  | .ok ymlconfig =>
  let tr2 := tr1 ++ [.yamlUnmarshal true] ++ (agentAuth w.agent).1
  match (agentAuth w.agent).2 with
  | .error e =>
    let msg := "Failed to get SSH auth method: " ++ e
    (tr2 ++ [.fatal msg], .error msg)
  | .ok authMethod =>
  let walletPath := filepathJoin [ymlconfig.atpWalletPath, ymlconfig.atpWalletName]
  match w.readFile walletPath with
  | .error e =>
    let msg := "Failed to read wallet file: " ++ e
    (tr2 ++ [.readFile walletPath false, .fatal msg], .error msg)
  | .ok wallet =>
  let tr3 := tr2 ++ [.readFile walletPath true]
  let addr := hostPort ymlconfig.sshHostname ymlconfig.sshPort
  match w.sshDial "tcp" addr ymlconfig.sshUsername authMethod with
  | .error e =>
    let msg := "Failed to connect to SSH server: " ++ e
    (tr3 ++ [.sshDial "tcp" addr ymlconfig.sshUsername authMethod false, .fatal msg],
      .error msg)
  | .ok _ =>
  let tr4 := tr3 ++ [.sshDial "tcp" addr ymlconfig.sshUsername authMethod true]
  match w.sshListen "tcp" "localhost:1522" with
  | .error e =>
    let msg := "Failed to create listener: " ++ e
    (tr4 ++ [.sshListen "tcp" "localhost:1522" false, .fatal msg], .error msg)
  | .ok _ =>
    (tr4 ++ [.sshListen "tcp" "localhost:1522" true,
      .logPrintln "Port forwarding started on localhost:1522"], .ok (wallet, ymlconfig))

/-- The function `main`: the calls it makes in its own goroutine, and how it ends.
The deferred `conn.Close()` and `listener.Close()` never run: `main` does not
return, and `log.Fatalf` exits without running deferred calls. -/
def main (w : World) : List Event × Outcome :=
  match startup w with
  | (tr, .error msg) => (tr, .fatal msg)
  | (tr, .ok (wallet, ymlconfig)) =>
    let r := acceptLoop wallet ymlconfig w.accepts
    (tr ++ r.1, r.2)

/-- The streams of the successful accepts that come before the first failure. -/
def okPrefix : List (Except GoError Nat) → List Nat
  | .ok conn :: rest => conn :: okPrefix rest
  | _ => []

/-- The error of the first failing accept, if there is one. -/
def firstFailure : List (Except GoError Nat) → Option GoError
  | [] => none
  | .error e :: _ => some e
  | .ok _ :: rest => firstFailure rest

/-- The forwarding tasks a trace starts, in order. -/
def dispatched (tr : List Event) : List ForwardTask :=
  tr.filterMap fun e => match e with
    | .goHandle t => some t
    | _ => none

/-- The number of calls of `listener.Accept()` that return in a trace. -/
def acceptCalls (tr : List Event) : Nat :=
  (tr.filter fun e => match e with
    | .accept _ => true
    | _ => false).length

/-- The number of calls of `ssh.Dial` in a trace. -/
def sshDials (tr : List Event) : Nat :=
  (tr.filter fun e => match e with
    | .sshDial _ _ _ _ _ => true
    | _ => false).length

/-- The network and address of every `conn.Listen` of a trace, in order. -/
def listenRequests (tr : List Event) : List (String × String) :=
  tr.filterMap fun e => match e with
    | .sshListen n a _ => some (n, a)
    | _ => none

/-- A trace that makes no call on the server: no `ssh.Dial`, no `conn.Listen`, no
`listener.Accept()` and no forwarding task. -/
def Quiet (tr : List Event) : Prop :=
  sshDials tr = 0 ∧ listenRequests tr = [] ∧ acceptCalls tr = 0 ∧ dispatched tr = [] ∧
    ∀ n a u au ok, Event.sshDial n a u au ok ∉ tr

/-! ## `handleConnection` -/

/-- The error part of what a `Read` returns: `nil`, `io.EOF` or another error. -/
inductive ReadStatus where
  | ok
  | eof
  | err
  deriving DecidableEq, Repr

/-- What one call of `Read` returns: the bytes read and the error part. -/
structure ReadResult where
  data : Bytes
  status : ReadStatus
  deriving DecidableEq, Repr

/-- What one call of `Write` returns on an open connection: success, or an error
after `n` bytes went out. -/
inductive WriteResult where
  | ok
  | fail (n : Nat)
  deriving DecidableEq, Repr

/-- The answers the outside gives to the calls of one `handleConnection`. -/
structure ConnWorld where
  /-- The call `net.Dial("tcp", remoteAddr)`. -/
  dial : String → Except GoError Unit
  /-- What the successive calls of `conn.Read` return; after the last entry `Read`
  does not return any more. -/
  acceptedReads : List ReadResult
  /-- What the successive calls of `target.Read` return while the target is open. -/
  targetReads : List ReadResult
  /-- What the successive calls of `target.Write` return while the target is open;
  after the last entry every write succeeds. -/
  targetWrites : List WriteResult
  /-- What the successive calls of `conn.Write` return. -/
  acceptedWrites : List WriteResult

/-- Where the goroutine running the body of `handleConnection` stands. -/
inductive HPc where
  /-- Before `net.Dial`. -/
  | dial
  /-- The dial failed and `log.Fatalf` ran. -/
  | dialFailed
  /-- Before `target.Write(wallet)`. -/
  | writeWallet
  /-- The wallet write failed and `log.Fatalf` ran. -/
  | writeFailed
  /-- Before the first `go func()`. -/
  | spawnFirst
  /-- Before the second `go func()`. -/
  | spawnSecond
  /-- At the end of the body: the deferred `target.Close()` is next. -/
  | deferred
  /-- The function has returned. -/
  | returned
  deriving DecidableEq, Repr

/-- Where a relay goroutine stands in its `io.Copy`. -/
inductive RPc where
  /-- The goroutine has not been started. -/
  | idle
  /-- Before a `Read` on the source. -/
  | reading
  /-- Before the `Write` of the bytes just read; `st` is the error part the `Read`
  returned with them. -/
  | writing (chunk : Bytes) (st : ReadStatus)
  /-- The copy returned `nil` and the goroutine ended. -/
  | exited
  /-- The copy returned an error and `log.Fatalf` ran. -/
  | failed
  deriving DecidableEq, Repr

/-- The goroutines of one forwarded connection. -/
inductive Tid where
  | handler
  | relay (d : Dir)
  deriving DecidableEq, Repr

/-- The state of one forwarded connection. -/
structure State where
  /-- The process has exited through `log.Fatalf`. -/
  halted : Bool
  hpc : HPc
  /-- The goroutine `io.Copy(conn, target)`. -/
  r1 : RPc
  /-- The goroutine `io.Copy(target, conn)`. -/
  r2 : RPc
  /-- The call `target.Close()` has run. -/
  targetClosed : Bool
  acceptedReads : List ReadResult
  targetReads : List ReadResult
  targetWrites : List WriteResult
  acceptedWrites : List WriteResult
  /-- The bytes that went out on the target connection. -/
  targetGot : Bytes
  /-- The bytes that went out on the accepted stream. -/
  acceptedGot : Bytes
  /-- The bytes read so far from the accepted stream. -/
  fromAccepted : Bytes
  /-- The bytes read so far from the target connection. -/
  fromTarget : Bytes
  trace : List Event
  deriving DecidableEq, Repr

/-- The state at the call of `handleConnection`. -/
def State.init (w : ConnWorld) : State :=
  { halted := false, hpc := .dial, r1 := .idle, r2 := .idle, targetClosed := false,
    acceptedReads := w.acceptedReads, targetReads := w.targetReads,
    targetWrites := w.targetWrites, acceptedWrites := w.acceptedWrites,
    targetGot := [], acceptedGot := [], fromAccepted := [], fromTarget := [], trace := [] }

/-- The address `handleConnection` dials. -/
def remoteAddr (ymlconfig : Config) : String :=
  hostPort ymlconfig.atpHostname ymlconfig.atpPort

/-- The next answer of a write script, and the rest of the script. -/
def nextWrite : List WriteResult → WriteResult × List WriteResult
  | [] => (.ok, [])
  | r :: rest => (r, rest)

/-- The bytes of `data` that go out under the answer `r`. -/
def delivered (data : Bytes) : WriteResult → Bytes
  | .ok => data
  | .fail n => data.take n

/-- One step of the body of `handleConnection`. -/
def stepHandler (w : ConnWorld) (wallet : Bytes) (ymlconfig : Config) (s : State) : State :=
  match s.hpc with
  | .dial =>
    match w.dial (remoteAddr ymlconfig) with
    | .error e =>
      { s with hpc := .dialFailed, halted := true,
               trace := s.trace ++ [.netDial "tcp" (remoteAddr ymlconfig) false,
                 .fatal ("Failed to connect to target: " ++ e)] }
    | .ok _ =>
      { s with hpc := .writeWallet,
               trace := s.trace ++ [.netDial "tcp" (remoteAddr ymlconfig) true] }
  | .writeWallet =>
    match nextWrite s.targetWrites with
    | (.ok, rest) =>
      { s with hpc := .spawnFirst, targetWrites := rest, targetGot := s.targetGot ++ wallet,
               trace := s.trace ++ [.write .target wallet true] }
    | (.fail n, rest) =>
      { s with hpc := .writeFailed, halted := true, targetWrites := rest,
               targetGot := s.targetGot ++ wallet.take n,
               trace := s.trace ++ [.write .target wallet false,
                 .fatal "Failed to write wallet data to target"] }
  | .spawnFirst =>
    { s with hpc := .spawnSecond, r1 := .reading,
             trace := s.trace ++ [.goRelay .targetToAccepted] }
  | .spawnSecond =>
    { s with hpc := .deferred, r2 := .reading,
             trace := s.trace ++ [.goRelay .acceptedToTarget] }
  | .deferred =>
    { s with hpc := .returned, targetClosed := true, trace := s.trace ++ [.close .target] }
  | .dialFailed => s
  | .writeFailed => s
  | .returned => s

/-- The message of the `log.Fatalf` of a relay goroutine. -/
def copyFailure : Dir → String
  | .targetToAccepted => "Failed to copy data from target to connection"
  | .acceptedToTarget => "Failed to copy data from connection to target"

/-- The program counter of a relay goroutine. -/
def State.relay (s : State) : Dir → RPc
  | .targetToAccepted => s.r1
  | .acceptedToTarget => s.r2

/-- Set the program counter of a relay goroutine. -/
def State.setRelay (s : State) (d : Dir) (pc : RPc) : State :=
  match d with
  | .targetToAccepted => { s with r1 := pc }
  | .acceptedToTarget => { s with r2 := pc }

/-- The copy of the goroutine `d` returns an error: `log.Fatalf` exits the process. -/
def copyFails (d : Dir) (s : State) : State :=
  { s.setRelay d .failed with
    halted := true, trace := s.trace ++ [.copyReturn d false, .fatal (copyFailure d)] }

/-- The copy of the goroutine `d` returns `nil`: the goroutine ends. -/
def copyEnds (d : Dir) (s : State) : State :=
  { s.setRelay d .exited with trace := s.trace ++ [.copyReturn d true] }

/-- The loop of `io.Copy` after a round whose `Read` returned the error part `st`
and whose `Write`, if any, succeeded. -/
def afterRound (d : Dir) (st : ReadStatus) (s : State) : State :=
  match st with
  | .ok => s.setRelay d .reading
  | .eof => copyEnds d s
  | .err => copyFails d s

/-- The call of `Read` on the source of the goroutine `d`: `none` when the call does
not return, otherwise what it returns and the state with the answer used up.  A
`Read` on the closed target returns an error. -/
def readSource (d : Dir) (s : State) : Option (ReadResult × State) :=
  match d with
  | .targetToAccepted =>
    if s.targetClosed then some (⟨[], .err⟩, s)
    else
      match s.targetReads with
      | [] => none
      | r :: rest => some (r, { s with targetReads := rest, fromTarget := s.fromTarget ++ r.data })
  | .acceptedToTarget =>
    match s.acceptedReads with
    | [] => none
    | r :: rest =>
      some (r, { s with acceptedReads := rest, fromAccepted := s.fromAccepted ++ r.data })

/-- The call of `Write` of `chunk` on the destination of the goroutine `d`: whether
it succeeded, and the state after it.  A `Write` on the closed target returns an
error and sends nothing. -/
def writeDest (d : Dir) (chunk : Bytes) (s : State) : Bool × State :=
  match d with
  | .targetToAccepted =>
    let r := nextWrite s.acceptedWrites
    (r.1 == .ok,
     { s with acceptedWrites := r.2, acceptedGot := s.acceptedGot ++ delivered chunk r.1,
              trace := s.trace ++ [.write .accepted chunk (r.1 == .ok)] })
  | .acceptedToTarget =>
    if s.targetClosed then
      (false, { s with trace := s.trace ++ [.write .target chunk false] })
    else
      let r := nextWrite s.targetWrites
      (r.1 == .ok,
       { s with targetWrites := r.2, targetGot := s.targetGot ++ delivered chunk r.1,
                trace := s.trace ++ [.write .target chunk (r.1 == .ok)] })

/-- One step of the relay goroutine `d`: one `Read` or one `Write` of the loop of
`io.Copy`, together with the return of the copy when the call ends it. -/
def stepRelay (d : Dir) (s : State) : State :=
  match s.relay d with
  | .idle => s
  | .exited => s
  | .failed => s
  | .reading =>
    match readSource d s with
    | none => s
    | some (r, s1) =>
      if r.data = [] then afterRound d r.status s1
      else s1.setRelay d (.writing r.data r.status)
  | .writing chunk st =>
    match writeDest d chunk s with
    | (true, s1) => afterRound d st s1
    | (false, s1) => copyFails d s1

/-- One step of the goroutine `t`; nothing runs once the process has exited. -/
def step (w : ConnWorld) (wallet : Bytes) (ymlconfig : Config) (s : State) (t : Tid) : State :=
  if s.halted then s
  else
    match t with
    | .handler => stepHandler w wallet ymlconfig s
    | .relay d => stepRelay d s

/-- The function `handleConnection` with its two relay goroutines: the state after
the goroutines ran in the order `sched`, from the state at the call. -/
def handleConnection (w : ConnWorld) (wallet : Bytes) (ymlconfig : Config) (sched : List Tid) : State :=
  sched.foldl (step w wallet ymlconfig) (State.init w)

/-- The two opening calls of a successful `handleConnection`. -/
def opening (wallet : Bytes) (ymlconfig : Config) : List Event :=
  [.netDial "tcp" (remoteAddr ymlconfig) true, .write .target wallet true]

/-- What holds of every state `handleConnection` can reach. -/
structure Inv (w : ConnWorld) (wallet : Bytes) (ymlconfig : Config) (s : State) : Prop where
  first : s.r1 ≠ .idle → s.hpc = .spawnSecond ∨ s.hpc = .deferred ∨ s.hpc = .returned
  second : s.r2 ≠ .idle → s.hpc = .deferred ∨ s.hpc = .returned
  halt : s.halted = true ↔
    (s.hpc = .dialFailed ∨ s.hpc = .writeFailed ∨ s.r1 = .failed ∨ s.r2 = .failed)
  closedIff : s.targetClosed = true ↔ s.hpc = .returned
  dialOk : s.hpc ≠ .dial → s.hpc ≠ .dialFailed → w.dial (remoteAddr ymlconfig) = .ok ()
  dialErr : s.hpc = .dialFailed → ∃ e, w.dial (remoteAddr ymlconfig) = .error e
  bytes :
    match s.hpc with
    | .dial => s.targetGot = [] ∧ s.fromAccepted = []
    | .dialFailed => s.targetGot = [] ∧ s.fromAccepted = []
    | .writeWallet => s.targetGot = [] ∧ s.fromAccepted = []
    | .writeFailed => s.targetGot <+: wallet ∧ s.fromAccepted = []
    | _ => ∃ done, s.targetGot = wallet ++ done ∧
        (match s.r2 with
         | .failed => done <+: s.fromAccepted
         | .writing chunk _ => done ++ chunk = s.fromAccepted
         | _ => done = s.fromAccepted)
  shape :
    match s.hpc with
    | .dial => s.trace = []
    | .dialFailed => ∃ msg, s.trace = [.netDial "tcp" (remoteAddr ymlconfig) false, .fatal msg]
    | .writeWallet => s.trace = [.netDial "tcp" (remoteAddr ymlconfig) true]
    | .writeFailed => ∃ msg, s.trace = [.netDial "tcp" (remoteAddr ymlconfig) true,
        .write .target wallet false, .fatal msg]
    | _ => opening wallet ymlconfig <+: s.trace
  keepsAccepted : Event.close .accepted ∉ s.trace

/-- What the trace of a reachable state tells about the goroutines. -/
structure Logged (ymlconfig : Config) (s : State) : Prop where
  fatal : s.halted = true ↔ ∃ msg, Event.fatal msg ∈ s.trace
  dialFailed : Event.netDial "tcp" (remoteAddr ymlconfig) false ∈ s.trace ↔ s.hpc = .dialFailed
  firstFailed : Event.copyReturn .targetToAccepted false ∈ s.trace ↔ s.r1 = .failed
  secondFailed : Event.copyReturn .acceptedToTarget false ∈ s.trace ↔ s.r2 = .failed
  firstEnded : Event.copyReturn .targetToAccepted true ∈ s.trace ↔ s.r1 = .exited
  secondEnded : Event.copyReturn .acceptedToTarget true ∈ s.trace ↔ s.r2 = .exited

/-! ## Sample worlds -/

/-- An agent that answers on the socket of `/home/alice` and holds no identity. -/
def emptyAgent : AgentWorld :=
  { userCurrent := .ok ⟨"/home/alice"⟩, dialUnix := fun _ => .ok (), signers := .ok [] }

/-- An agent of a user whose home directory is the root directory. -/
def rootHomeAgent : AgentWorld :=
  { userCurrent := .ok ⟨"/"⟩, dialUnix := fun _ => .ok (), signers := .ok ["id_ed25519"] }

/-- An agent of a user whose home directory is the empty string. -/
def noHomeAgent : AgentWorld :=
  { userCurrent := .ok ⟨""⟩, dialUnix := fun _ => .ok (), signers := .ok ["id_ed25519"] }

/-- An agent of `/home/alice` holding one identity. -/
def keyAgent : AgentWorld :=
  { userCurrent := .ok ⟨"/home/alice"⟩, dialUnix := fun _ => .ok (),
    signers := .ok ["id_ed25519"] }

/-- An agent whose socket refuses the connection. -/
def downAgent : AgentWorld :=
  { userCurrent := .ok ⟨"/home/alice"⟩, dialUnix := fun _ => .error "connection refused",
    signers := .ok ["id_ed25519"] }

/-- A configuration document that sets every key of `tunnel.yaml`. -/
def sampleDoc : Yaml :=
  .map [("ssh_hostname", .str "bastion.example.com"), ("ssh_port", .int 22),
        ("ssh_username", .str "alice"),
        ("database", .map [("atp_hostname", .str "db.example.com"), ("atp_port", .int 1522),
          ("atp_username", .str "admin"), ("atp_wallet_path", .str "/opt/wallet"),
          ("atp_wallet_name", .str "cwallet.sso"), ("atp_password", .str "secret")])]

/-- A machine holding `tunnel.yaml` with the sample document and the wallet file it
names, a working agent, a reachable server, and two clients before the listener
fails. -/
def diskWorld : World :=
  { readFile := fun p =>
      if p = "tunnel.yaml" then .ok [35]
      else if p = "/opt/wallet/cwallet.sso" then .ok [7, 7]
      else .error "no such file or directory",
    yamlParse := fun _ => .ok sampleDoc,
    agent := keyAgent,
    sshDial := fun _ _ _ _ => .ok (),
    sshListen := fun _ _ => .ok (),
    accepts := [.ok 1, .ok 2, .error "use of closed network connection"] }

/-- The same machine, on which every file read succeeds. -/
def openWorld : World := { diskWorld with readFile := fun _ => .ok [7, 7] }

/-- The machine `openWorld` with an agent that refuses the connection. -/
def lockedWorld : World := { openWorld with agent := downAgent }

/-- The machine `openWorld` with a server that rejects the session. -/
def rejectedWorld : World :=
  { openWorld with sshDial := fun _ _ _ _ => .error "unable to authenticate" }

/-- The bytes of `SELECT 1`. -/
def select1 : Bytes := [83, 69, 76, 69, 67, 84, 32, 49]

/-- The bytes of a wallet file. -/
def walletBytes : Bytes := [87, 65, 76, 76, 69, 84]

/-- A configuration whose target is `db.example.com:1522`. -/
def dbConfig : Config := { Config.zero with atpHostname := "db.example.com", atpPort := 1522 }

/-- A connection on which the client sends `SELECT 1` and closes, and the target,
reachable, answers `OK` and closes. -/
def queryWorld : ConnWorld :=
  { dial := fun _ => .ok (),
    acceptedReads := [⟨select1, .ok⟩, ⟨[], .eof⟩],
    targetReads := [⟨[79, 75], .ok⟩, ⟨[], .eof⟩],
    targetWrites := [], acceptedWrites := [] }

/-- The same connection, with a target that takes the wallet and then resets. -/
def resetWorld : ConnWorld := { queryWorld with targetWrites := [.ok, .fail 0] }

/-- The same connection, with a target that refuses the dial. -/
def refusedWorld : ConnWorld :=
  { queryWorld with dial := fun _ => .error "connection refused" }

/-- The same connection, with a target that resets after three bytes of the wallet. -/
def stalledWorld : ConnWorld := { queryWorld with targetWrites := [.fail 3] }

/-! # Theorems -/

/-! ## Paths -/

theorem splitSlash_ne_nil (p : List Char) : splitSlash p ≠ [] := by
  cases p with
  | nil => simp [splitSlash]
  | cons c cs =>
    unfold splitSlash
    split
    · simp
    · split <;> simp

theorem splitSlash_append (a b : List Char) :
    splitSlash (a ++ '/' :: b) = splitSlash a ++ splitSlash b := by
  induction a with
  | nil => simp [splitSlash]
  | cons c cs ih =>
    by_cases hc : c = '/'
    · simp [splitSlash, hc, ih]
    · have hne := splitSlash_ne_nil cs
      cases hs : splitSlash cs with
      | nil => exact absurd hs hne
      | cons e es => simp [splitSlash, hc, ih, hs]

theorem joinSlash_snoc (xs : List (List Char)) (a : List Char) :
    joinSlash (xs ++ [a]) = if xs = [] then a else joinSlash xs ++ '/' :: a := by
  induction xs with
  | nil => simp [joinSlash]
  | cons x rest ih =>
    cases rest with
    | nil => simp [joinSlash]
    | cons y ys =>
      simp only [List.cons_append] at ih ⊢
      simp [joinSlash, ih]

theorem splitSlash_sock : splitSlash ".ssh/agent.sock".data = [".ssh".data, "agent.sock".data] := by
  decide

theorem render_sock (r : Bool) (out : List (List Char)) (h : List Char)
    (hclean : (if r = true then '/' :: joinSlash out.reverse
      else if out = [] then ['.'] else joinSlash out.reverse) = h)
    (hroot : h ≠ ['/']) (hdot : h ≠ ['.']) :
    (if r = true then '/' :: joinSlash ("agent.sock".data :: ".ssh".data :: out).reverse
      else if "agent.sock".data :: ".ssh".data :: out = [] then ['.']
      else joinSlash ("agent.sock".data :: ".ssh".data :: out).reverse)
      = h ++ "/.ssh/agent.sock".data := by
  have hrev : ("agent.sock".data :: ".ssh".data :: out).reverse
      = (out.reverse ++ [".ssh".data]) ++ ["agent.sock".data] := by simp
  rw [hrev, joinSlash_snoc, joinSlash_snoc]
  by_cases ho : out = []
  · subst ho
    cases r with
    | true =>
      simp [joinSlash] at hclean
      exact absurd hclean.symm hroot
    | false =>
      simp at hclean
      exact absurd hclean.symm hdot
  · cases r with
    | true =>
      simp only [if_true] at hclean
      subst hclean
      simp [ho]
    | false =>
      simp [ho] at hclean
      subst hclean
      simp [ho]

theorem cleanChars_sock (h : List Char) (hclean : cleanChars h = h) (hroot : h ≠ ['/'])
    (hdot : h ≠ ['.']) :
    cleanChars (h ++ "/.ssh/agent.sock".data) = h ++ "/.ssh/agent.sock".data := by
  cases h with
  | nil => simp [cleanChars] at hclean
  | cons c cs =>
    have hsplit : splitSlash (c :: (cs ++ "/.ssh/agent.sock".data))
        = splitSlash (c :: cs) ++ [".ssh".data, "agent.sock".data] := by
      have := splitSlash_append (c :: cs) ".ssh/agent.sock".data
      rw [splitSlash_sock] at this
      exact this
    have h1 : ∀ out, List.foldl (cleanElem (c == '/')) out [".ssh".data, "agent.sock".data]
        = "agent.sock".data :: ".ssh".data :: out := by
      intro out
      simp [List.foldl, cleanElem]
    change (if (c == '/') = true then
        '/' :: joinSlash ((splitSlash (c :: cs)).foldl (cleanElem (c == '/')) []).reverse
      else if (splitSlash (c :: cs)).foldl (cleanElem (c == '/')) [] = [] then ['.']
      else joinSlash ((splitSlash (c :: cs)).foldl (cleanElem (c == '/')) []).reverse)
      = c :: cs at hclean
    change (if (c == '/') = true then
        '/' :: joinSlash ((splitSlash (c :: (cs ++ "/.ssh/agent.sock".data))).foldl
          (cleanElem (c == '/')) []).reverse
      else if (splitSlash (c :: (cs ++ "/.ssh/agent.sock".data))).foldl
          (cleanElem (c == '/')) [] = [] then ['.']
      else joinSlash ((splitSlash (c :: (cs ++ "/.ssh/agent.sock".data))).foldl
          (cleanElem (c == '/')) []).reverse)
      = c :: cs ++ "/.ssh/agent.sock".data
    rw [hsplit, List.foldl_append, h1]
    exact render_sock _ _ _ hclean hroot hdot

theorem intercalate_three (h a b : String) :
    "/".intercalate [h, a, b] = h ++ "/" ++ a ++ "/" ++ b := by
  simp [String.intercalate, String.intercalate.go]

theorem agentSocketPath_clean (h : String) (hclean : filepathClean h = h) (hroot : h ≠ "/")
    (hdot : h ≠ ".") : agentSocketPath h = h ++ "/.ssh/agent.sock" := by
  have hne : h ≠ "" := by
    intro he
    rw [he] at hclean
    revert hclean
    decide
  have hc : cleanChars h.data = h.data := by
    have := congrArg String.data hclean
    simpa [filepathClean] using this
  have h1 : h.data ≠ ['/'] := by
    intro he
    apply hroot
    apply String.ext
    simpa using he
  have h2 : h.data ≠ ['.'] := by
    intro he
    apply hdot
    apply String.ext
    simpa using he
  unfold agentSocketPath filepathJoin
  rw [if_neg hne, intercalate_three]
  unfold filepathClean
  apply String.ext
  have := cleanChars_sock h.data hc h1 h2
  simp only [String.data_append] at this ⊢
  simpa using this

/-! ## `agentAuth` -/

/-- C9, as stated, fails: for the home directory `/` the socket dialed is
`/.ssh/agent.sock`, not `/` followed by `/.ssh/agent.sock`, and for the empty home
directory it is the relative path `.ssh/agent.sock`. -/
theorem agentAuth_socket_not_concat :
    rootHomeAgent.userCurrent = .ok ⟨"/"⟩ ∧
    dialed "unix" (agentAuth rootHomeAgent).1 = ["/.ssh/agent.sock"] ∧
    dialed "unix" (agentAuth rootHomeAgent).1 ≠ ["/" ++ "/.ssh/agent.sock"] ∧
    noHomeAgent.userCurrent = .ok ⟨""⟩ ∧
    dialed "unix" (agentAuth noHomeAgent).1 = [".ssh/agent.sock"] ∧
    dialed "unix" (agentAuth noHomeAgent).1 ≠ ["" ++ "/.ssh/agent.sock"] :=
  ⟨rfl, by decide, by decide, rfl, by decide, by decide⟩

/-- C9 (amended): for every home directory `h` resolved for the current user,
`agentAuth` dials exactly one address on the network `unix`, the path
`filepath.Join(h, ".ssh", "agent.sock")`; whenever `h` is in cleaned form
(`filepath.Clean(h) = h`) and is neither `/` nor `.`, that path is `h` followed by
`/.ssh/agent.sock`. -/
theorem agentAuth_socket_path (w : AgentWorld) (usr : User) (hu : w.userCurrent = .ok usr) :
    dialed "unix" (agentAuth w).1 = [filepathJoin [usr.homeDir, ".ssh", "agent.sock"]] ∧
    (filepathClean usr.homeDir = usr.homeDir → usr.homeDir ≠ "/" → usr.homeDir ≠ "." →
      dialed "unix" (agentAuth w).1 = [usr.homeDir ++ "/.ssh/agent.sock"]) := by
  have h1 : dialed "unix" (agentAuth w).1
      = [filepathJoin [usr.homeDir, ".ssh", "agent.sock"]] := by
    unfold agentAuth
    rw [hu]
    simp only []
    split
    · simp [dialed, agentSocketPath]
    · split <;> simp [dialed, agentSocketPath]
  refine ⟨h1, ?_⟩
  intro hc hr hd
  rw [h1]
  have := agentSocketPath_clean usr.homeDir hc hr hd
  unfold agentSocketPath at this
  rw [this]

/-- C9 (amended), at the home directory `/home/alice`. -/
theorem agentAuth_socket_path_alice :
    keyAgent.userCurrent = .ok ⟨"/home/alice"⟩ ∧
    filepathClean "/home/alice" = "/home/alice" ∧
    dialed "unix" (agentAuth keyAgent).1 = ["/home/alice" ++ "/.ssh/agent.sock"] :=
  ⟨rfl, by decide,
    (agentAuth_socket_path keyAgent ⟨"/home/alice"⟩ rfl).2 (by decide) (by decide) (by decide)⟩

/-- C2, as stated, fails: with an agent that answers and reports no identity,
`agentAuth` returns a nil error and an auth method. -/
theorem agentAuth_no_identity_succeeds :
    emptyAgent.signers = .ok [] ∧
    (agentAuth emptyAgent).2 = .ok (.publicKeys []) ∧
    ¬ ∃ e, (agentAuth emptyAgent).2 = .error e := by
  refine ⟨rfl, rfl, ?_⟩
  rintro ⟨e, h⟩
  have hok : (agentAuth emptyAgent).2 = .ok (.publicKeys []) := rfl
  rw [hok] at h
  cases h

/-- C2 (amended): `agentAuth` returns a non-nil error exactly when the user lookup
fails, the dial of the agent socket fails, or the `Signers` call returns an error;
when all three succeed it returns a nil error and the auth method built from the
signers the agent reported, also when that list is empty. -/
theorem agentAuth_error_iff (w : AgentWorld) :
    ((∃ e, (agentAuth w).2 = .error e) ↔
      ((∃ e, w.userCurrent = .error e) ∨
       (∃ usr e, w.userCurrent = .ok usr ∧ w.dialUnix (agentSocketPath usr.homeDir) = .error e) ∨
       (∃ e, w.signers = .error e))) ∧
    (∀ usr signers, w.userCurrent = .ok usr →
      w.dialUnix (agentSocketPath usr.homeDir) = .ok () → w.signers = .ok signers →
      (agentAuth w).2 = .ok (.publicKeys signers)) := by
  constructor
  · unfold agentAuth
    cases hu : w.userCurrent with
    | error e => simp
    | ok usr =>
      simp only []
      cases hd : w.dialUnix (agentSocketPath usr.homeDir) with
      | error e => simp [hd]
      | ok u =>
        simp only []
        cases hs : w.signers with
        | error e => simp
        | ok signers => simp [hd]
  · intro usr signers hu hd hs
    unfold agentAuth
    rw [hu]
    simp only []
    rw [hd]
    simp only []
    rw [hs]

/-- C2 (amended), at an agent that reports no identity. -/
theorem agentAuth_error_iff_empty :
    emptyAgent.userCurrent = .ok ⟨"/home/alice"⟩ ∧
    emptyAgent.dialUnix (agentSocketPath "/home/alice") = .ok () ∧
    emptyAgent.signers = .ok [] ∧
    (agentAuth emptyAgent).2 = .ok (.publicKeys []) :=
  ⟨rfl, rfl, rfl, (agentAuth_error_iff emptyAgent).2 ⟨"/home/alice"⟩ [] rfl rfl rfl⟩

/-- C7: on every return path of `agentAuth` the trace closes the agent connection as
many times as it opened one, at most once; the close, when there is one, is the
last call before the return; and there is one exactly when the user lookup and the
dial of the socket succeeded. -/
theorem agentAuth_closes_conn (w : AgentWorld) :
    opened (agentAuth w).1 = closed .agentConn (agentAuth w).1 ∧
    closed .agentConn (agentAuth w).1 ≤ 1 ∧
    (closed .agentConn (agentAuth w).1 = 0 ∨
      (agentAuth w).1.getLast? = some (.close .agentConn)) ∧
    (closed .agentConn (agentAuth w).1 = 1 ↔
      ∃ usr, w.userCurrent = .ok usr ∧ w.dialUnix (agentSocketPath usr.homeDir) = .ok ()) := by
  unfold agentAuth
  cases hu : w.userCurrent with
  | error e => simp [opened, closed]
  | ok usr =>
    simp only []
    cases hd : w.dialUnix (agentSocketPath usr.homeDir) with
    | error e => simp [opened, closed, hd]
    | ok u =>
      simp only []
      cases hs : w.signers with
      | error e => simp [opened, closed, hd]
      | ok signers => simp [opened, closed, hd]

/-! ## `main` -/

theorem quiet_nil : Quiet [] := by
  simp [Quiet, sshDials, listenRequests, acceptCalls, dispatched]

theorem agentAuth_quiet (w : AgentWorld) : Quiet (agentAuth w).1 := by
  unfold agentAuth
  cases w.userCurrent with
  | error e => simp [Quiet, sshDials, listenRequests, acceptCalls, dispatched]
  | ok usr =>
    simp only []
    cases w.dialUnix (agentSocketPath usr.homeDir) with
    | error e => simp [Quiet, sshDials, listenRequests, acceptCalls, dispatched]
    | ok u =>
      simp only []
      cases w.signers with
      | error e => simp [Quiet, sshDials, listenRequests, acceptCalls, dispatched]
      | ok signers => simp [Quiet, sshDials, listenRequests, acceptCalls, dispatched]

theorem quiet_append {a b : List Event} (ha : Quiet a) (hb : Quiet b) : Quiet (a ++ b) := by
  obtain ⟨a1, a2, a3, a4, a5⟩ := ha
  obtain ⟨b1, b2, b3, b4, b5⟩ := hb
  unfold sshDials at a1 b1
  unfold listenRequests at a2 b2
  unfold acceptCalls at a3 b3
  unfold dispatched at a4 b4
  refine ⟨?_, ?_, ?_, ?_, ?_⟩
  · simp only [sshDials, List.filter_append, List.length_append, a1, b1]
  · simp only [listenRequests, List.filterMap_append, a2, b2, List.append_nil]
  · simp only [acceptCalls, List.filter_append, List.length_append, a3, b3]
  · simp only [dispatched, List.filterMap_append, a4, b4, List.append_nil]
  · intro n a u au ok hmem
    rcases List.mem_append.1 hmem with h | h
    · exact a5 n a u au ok h
    · exact b5 n a u au ok h

/-- The four ways the body of `main` reaches the accept loop or ends before it. -/
theorem startup_cases (w : World) :
    (∃ tr msg, startup w = (tr, .error msg) ∧ Quiet tr) ∨
    (∃ pre addr user auth msg,
      startup w = (pre ++ [.sshDial "tcp" addr user auth false, .fatal msg], .error msg) ∧
      Quiet pre) ∨
    (∃ pre addr user auth msg,
      startup w = (pre ++ [.sshDial "tcp" addr user auth true,
        .sshListen "tcp" "localhost:1522" false, .fatal msg], .error msg) ∧ Quiet pre) ∨
    (∃ pre addr user auth wallet cfg,
      startup w = (pre ++ [.sshDial "tcp" addr user auth true,
        .sshListen "tcp" "localhost:1522" true,
        .logPrintln "Port forwarding started on localhost:1522"], .ok (wallet, cfg)) ∧
      Quiet pre) := by
  have hq := agentAuth_quiet w.agent
  have hpre : ∀ p b, Quiet ([Event.readFile "tunnel.yaml" true] ++ [.yamlUnmarshal true]
      ++ (agentAuth w.agent).1 ++ [.readFile p b]) := by
    intro p b
    refine quiet_append (quiet_append ?_ hq) ?_
    · simp [Quiet, sshDials, listenRequests, acceptCalls, dispatched]
    · simp [Quiet, sshDials, listenRequests, acceptCalls, dispatched]
  unfold startup
  cases w.readFile "tunnel.yaml" with
  | error e =>
    left
    exact ⟨_, _, rfl, by simp [Quiet, sshDials, listenRequests, acceptCalls, dispatched]⟩
  | ok content =>
    simp only []
    cases (w.yamlParse content).bind (decodeConfig Config.zero) with
    | error e =>
      left
      exact ⟨_, _, rfl, by simp [Quiet, sshDials, listenRequests, acceptCalls, dispatched]⟩
    | ok cfg =>
      simp only []
      cases (agentAuth w.agent).2 with
      | error e =>
        left
        refine ⟨_, _, rfl, ?_⟩
        refine quiet_append (quiet_append ?_ hq) ?_
        · simp [Quiet, sshDials, listenRequests, acceptCalls, dispatched]
        · simp [Quiet, sshDials, listenRequests, acceptCalls, dispatched]
      | ok auth =>
        simp only []
        cases w.readFile (filepathJoin [cfg.atpWalletPath, cfg.atpWalletName]) with
        | error e =>
          left
          refine ⟨_, _, rfl, ?_⟩
          have := quiet_append (hpre (filepathJoin [cfg.atpWalletPath, cfg.atpWalletName]) false)
            (show Quiet [Event.fatal ("Failed to read wallet file: " ++ e)] by
              simp [Quiet, sshDials, listenRequests, acceptCalls, dispatched])
          simpa using this
        | ok wallet =>
          simp only []
          cases w.sshDial "tcp" (hostPort cfg.sshHostname cfg.sshPort) cfg.sshUsername auth with
          | error e =>
            right; left
            exact ⟨_, _, _, _, _, rfl, hpre _ true⟩
          | ok u =>
            simp only []
            cases w.sshListen "tcp" "localhost:1522" with
            | error e =>
              right; right; left
              refine ⟨_, hostPort cfg.sshHostname cfg.sshPort, cfg.sshUsername, auth,
                "Failed to create listener: " ++ e, ?_,
                hpre (filepathJoin [cfg.atpWalletPath, cfg.atpWalletName]) true⟩
              simp
            | ok u2 =>
              right; right; right
              refine ⟨_, hostPort cfg.sshHostname cfg.sshPort, cfg.sshUsername, auth,
                wallet, cfg, ?_,
                hpre (filepathJoin [cfg.atpWalletPath, cfg.atpWalletName]) true⟩
              simp

theorem acceptLoop_eq (wallet : Bytes) (cfg : Config) (accepts : List (Except GoError Nat)) :
    acceptLoop wallet cfg accepts =
      ((okPrefix accepts).flatMap (fun c => [Event.accept true, .goHandle ⟨c, wallet, cfg⟩]) ++
        (match firstFailure accepts with
         | none => []
         | some e => [.accept false, .fatal ("Failed to accept connection: " ++ e)]),
       match firstFailure accepts with
       | none => .waiting
       | some e => .fatal ("Failed to accept connection: " ++ e)) := by
  induction accepts with
  | nil => simp [acceptLoop, okPrefix, firstFailure]
  | cons a rest ih =>
    cases a with
    | error e => simp [acceptLoop, okPrefix, firstFailure, fatalf]
    | ok c =>
      simp only [acceptLoop, okPrefix, firstFailure, ih]
      simp

theorem acceptLoop_quiet (wallet : Bytes) (cfg : Config) (accepts : List (Except GoError Nat)) :
    sshDials (acceptLoop wallet cfg accepts).1 = 0 ∧
    listenRequests (acceptLoop wallet cfg accepts).1 = [] ∧
    ∀ n a u au ok, Event.sshDial n a u au ok ∉ (acceptLoop wallet cfg accepts).1 := by
  induction accepts with
  | nil => simp [acceptLoop, sshDials, listenRequests]
  | cons x rest ih =>
    cases x with
    | error e => simp [acceptLoop, fatalf, sshDials, listenRequests]
    | ok c =>
      obtain ⟨h1, h2, h3⟩ := ih
      unfold sshDials at h1
      unfold listenRequests at h2
      refine ⟨?_, ?_, ?_⟩
      · simpa [acceptLoop, sshDials] using h1
      · simpa [acceptLoop, listenRequests] using h2
      · intro n a u au ok
        simpa [acceptLoop] using h3 n a u au ok

theorem acceptLoop_dispatched (wallet : Bytes) (cfg : Config)
    (accepts : List (Except GoError Nat)) :
    dispatched (acceptLoop wallet cfg accepts).1
      = (okPrefix accepts).map (fun c => ⟨c, wallet, cfg⟩) ∧
    acceptCalls (acceptLoop wallet cfg accepts).1
      = (okPrefix accepts).length + (if (firstFailure accepts).isSome then 1 else 0) := by
  induction accepts with
  | nil => simp [acceptLoop, okPrefix, firstFailure, dispatched, acceptCalls]
  | cons x rest ih =>
    cases x with
    | error e => simp [acceptLoop, fatalf, okPrefix, firstFailure, dispatched, acceptCalls]
    | ok c =>
      obtain ⟨h1, h2⟩ := ih
      unfold dispatched at h1
      unfold acceptCalls at h2
      constructor
      · simp [acceptLoop, okPrefix, dispatched, h1]
      · simp [acceptLoop, okPrefix, firstFailure, acceptCalls, h2]
        omega

theorem startup_no_task (w : World) :
    dispatched (startup w).1 = [] ∧ acceptCalls (startup w).1 = 0 := by
  rcases startup_cases w with ⟨tr, msg, h, hq⟩ | ⟨pre, a, u, au, msg, h, hq⟩
    | ⟨pre, a, u, au, msg, h, hq⟩ | ⟨pre, a, u, au, wl, cfg, h, hq⟩
  all_goals
    obtain ⟨_, _, q3, q4, _⟩ := hq
    unfold dispatched at q4
    unfold acceptCalls at q3
    rw [h]
    simp [dispatched, acceptCalls, q3, q4]

/-- C4: for every sequence of accept results, the accept loop makes, for each
successful accept before the first failure and in that order, one `Accept` call
followed by one `go handleConnection` with the stream accepted and the same wallet
and configuration; at the first failure it makes that one `Accept` call, calls
`log.Fatalf` and nothing more; with no failure it stays in `Accept`.  The tasks
`main` starts are those of this loop, none when the startup ended in `log.Fatalf`,
so a listener that yields nothing gives no task. -/
theorem accept_loop_dispatch (w : World) (wallet : Bytes) (cfg : Config)
    (accepts : List (Except GoError Nat)) :
    acceptLoop wallet cfg accepts =
      ((okPrefix accepts).flatMap (fun c => [Event.accept true, .goHandle ⟨c, wallet, cfg⟩]) ++
        (match firstFailure accepts with
         | none => []
         | some e => [.accept false, .fatal ("Failed to accept connection: " ++ e)]),
       match firstFailure accepts with
       | none => .waiting
       | some e => .fatal ("Failed to accept connection: " ++ e)) ∧
    dispatched (acceptLoop wallet cfg accepts).1
      = (okPrefix accepts).map (fun c => ⟨c, wallet, cfg⟩) ∧
    acceptCalls (acceptLoop wallet cfg accepts).1
      = (okPrefix accepts).length + (if (firstFailure accepts).isSome then 1 else 0) ∧
    acceptLoop wallet cfg [] = ([], .waiting) ∧
    dispatched (main w).1 =
      (match (startup w).2 with
       | .error _ => []
       | .ok p => (okPrefix w.accepts).map (fun c => ⟨c, p.1, p.2⟩)) ∧
    acceptCalls (main w).1 =
      (match (startup w).2 with
       | .error _ => 0
       | .ok _ => (okPrefix w.accepts).length
           + (if (firstFailure w.accepts).isSome then 1 else 0)) := by
  refine ⟨acceptLoop_eq wallet cfg accepts, (acceptLoop_dispatched wallet cfg accepts).1,
    (acceptLoop_dispatched wallet cfg accepts).2, rfl, ?_, ?_⟩
  · have hs := startup_no_task w
    unfold main
    rcases hst : startup w with ⟨tr, res⟩
    rw [hst] at hs
    cases res with
    | error msg => simpa using hs.1
    | ok p =>
      obtain ⟨wl, c⟩ := p
      have h1 := hs.1
      unfold dispatched at h1
      simp only []
      have := (acceptLoop_dispatched wl c w.accepts).1
      unfold dispatched at this
      simp [dispatched, List.filterMap_append, h1, this]
  · have hs := startup_no_task w
    unfold main
    rcases hst : startup w with ⟨tr, res⟩
    rw [hst] at hs
    cases res with
    | error msg => simpa using hs.2
    | ok p =>
      obtain ⟨wl, c⟩ := p
      have h2 := hs.2
      unfold acceptCalls at h2
      simp only []
      have := (acceptLoop_dispatched wl c w.accepts).2
      unfold acceptCalls at this
      simp [acceptCalls, List.filter_append, h2, this]

theorem startup_auth_error (w : World) (e : GoError) (he : (agentAuth w.agent).2 = .error e) :
    ∃ tr msg, startup w = (tr, .error msg) ∧ Quiet tr := by
  have hq := agentAuth_quiet w.agent
  unfold startup
  cases w.readFile "tunnel.yaml" with
  | error e =>
    exact ⟨_, _, rfl, by simp [Quiet, sshDials, listenRequests, acceptCalls, dispatched]⟩
  | ok content =>
    simp only []
    cases (w.yamlParse content).bind (decodeConfig Config.zero) with
    | error e =>
      exact ⟨_, _, rfl, by simp [Quiet, sshDials, listenRequests, acceptCalls, dispatched]⟩
    | ok cfg =>
      simp only []
      rw [he]
      refine ⟨_, _, rfl, ?_⟩
      refine quiet_append (quiet_append ?_ hq) ?_
      · simp [Quiet, sshDials, listenRequests, acceptCalls, dispatched]
      · simp [Quiet, sshDials, listenRequests, acceptCalls, dispatched]

/-- C6: when `agentAuth` returns an error, `main` ends in `log.Fatalf` and its trace
holds no `ssh.Dial`, no `conn.Listen` and no `Accept`; and when a call of `ssh.Dial`
fails, `main` ends in `log.Fatalf` and its trace holds no `conn.Listen` and no
`Accept`. -/
theorem main_stops_before_tunnel (w : World) :
    ((∃ e, (agentAuth w.agent).2 = .error e) →
      (∃ msg, (main w).2 = .fatal msg) ∧ sshDials (main w).1 = 0 ∧
      listenRequests (main w).1 = [] ∧ acceptCalls (main w).1 = 0) ∧
    ((∃ n a u au, Event.sshDial n a u au false ∈ (main w).1) →
      (∃ msg, (main w).2 = .fatal msg) ∧
      listenRequests (main w).1 = [] ∧ acceptCalls (main w).1 = 0) := by
  constructor
  · rintro ⟨e, he⟩
    obtain ⟨tr, msg, h, hq⟩ := startup_auth_error w e he
    unfold main
    rw [h]
    exact ⟨⟨msg, rfl⟩, hq.1, hq.2.1, hq.2.2.1⟩
  · rintro ⟨n, a, u, au, hmem⟩
    have hl := acceptLoop_quiet
    rcases startup_cases w with ⟨tr, msg, h, hq⟩ | ⟨pre, a', u', au', msg, h, hq⟩
      | ⟨pre, a', u', au', msg, h, hq⟩ | ⟨pre, a', u', au', wl, cfg, h, hq⟩
    · unfold main at hmem ⊢
      rw [h] at hmem ⊢
      exact absurd hmem (hq.2.2.2.2 n a u au false)
    · unfold main
      rw [h]
      obtain ⟨_, q2, q3, _, _⟩ := hq
      unfold listenRequests at q2
      unfold acceptCalls at q3
      exact ⟨⟨msg, rfl⟩, by simp [listenRequests, q2], by simp [acceptCalls, q3]⟩
    · unfold main at hmem
      rw [h] at hmem
      have := hq.2.2.2.2 n a u au false
      simp at hmem
      exact absurd hmem this
    · unfold main at hmem
      rw [h] at hmem
      have h1 := hq.2.2.2.2 n a u au false
      have h2 := (hl wl cfg w.accepts).2.2 n a u au false
      simp at hmem
      rcases hmem with hmem | hmem
      · exact absurd hmem h1
      · exact absurd hmem h2

/-- C6, at a machine whose agent refuses the connection and at one whose server
rejects the session. -/
theorem main_stops_before_tunnel_sample :
    (∃ e, (agentAuth lockedWorld.agent).2 = .error e) ∧
    (∃ n a u au, Event.sshDial n a u au false ∈ (main rejectedWorld).1) ∧
    ((∃ msg, (main lockedWorld).2 = .fatal msg) ∧ sshDials (main lockedWorld).1 = 0 ∧
      listenRequests (main lockedWorld).1 = [] ∧ acceptCalls (main lockedWorld).1 = 0) ∧
    ((∃ msg, (main rejectedWorld).2 = .fatal msg) ∧
      listenRequests (main rejectedWorld).1 = [] ∧ acceptCalls (main rejectedWorld).1 = 0) :=
  ⟨⟨"connection refused", rfl⟩,
   ⟨"tcp", ":0", "", .publicKeys ["id_ed25519"], by decide⟩,
   (main_stops_before_tunnel lockedWorld).1 ⟨"connection refused", rfl⟩,
   (main_stops_before_tunnel rejectedWorld).2
     ⟨"tcp", ":0", "", .publicKeys ["id_ed25519"], by decide⟩⟩

/-- C8: for every world, and so for every configuration, the trace of `main` holds
at most one `ssh.Dial` and at most one `conn.Listen`; a `conn.Listen` is on the
network `tcp` and the address `localhost:1522`, and it comes right after the one
`ssh.Dial`, which succeeded. -/
theorem main_single_session (w : World) :
    sshDials (main w).1 ≤ 1 ∧
    (listenRequests (main w).1 = [] ∨ listenRequests (main w).1 = [("tcp", "localhost:1522")]) ∧
    (listenRequests (main w).1 = [] ∨
      ∃ pre addr user auth ok post,
        (main w).1 = pre ++ .sshDial "tcp" addr user auth true ::
          .sshListen "tcp" "localhost:1522" ok :: post ∧
        sshDials pre = 0 ∧ listenRequests pre = [] ∧
        sshDials post = 0 ∧ listenRequests post = []) := by
  rcases startup_cases w with ⟨tr, msg, h, hq⟩ | ⟨pre, a, u, au, msg, h, hq⟩
    | ⟨pre, a, u, au, msg, h, hq⟩ | ⟨pre, a, u, au, wl, cfg, h, hq⟩
  · unfold main
    rw [h]
    exact ⟨by simp [hq.1], Or.inl hq.2.1, Or.inl hq.2.1⟩
  · unfold main
    rw [h]
    obtain ⟨q1, q2, _, _, _⟩ := hq
    unfold sshDials at q1
    unfold listenRequests at q2
    exact ⟨by simp [sshDials, q1], Or.inl (by simp [listenRequests, q2]),
      Or.inl (by simp [listenRequests, q2])⟩
  · unfold main
    rw [h]
    obtain ⟨q1, q2, _, _, _⟩ := hq
    refine ⟨?_, Or.inr ?_, Or.inr ⟨pre, a, u, au, false, [.fatal msg], rfl, q1, q2, ?_, ?_⟩⟩
    · unfold sshDials at q1
      simp [sshDials, q1]
    · unfold listenRequests at q2
      simp [listenRequests, q2]
    · simp [sshDials]
    · simp [listenRequests]
  · unfold main
    rw [h]
    obtain ⟨q1, q2, _, _, _⟩ := hq
    obtain ⟨l1, l2, _⟩ := acceptLoop_quiet wl cfg w.accepts
    refine ⟨?_, Or.inr ?_, Or.inr ⟨pre, a, u, au, true,
      .logPrintln "Port forwarding started on localhost:1522" :: (acceptLoop wl cfg w.accepts).1,
      by simp, q1, q2, ?_, ?_⟩⟩
    · unfold sshDials at q1 l1
      simp [sshDials, q1, l1]
    · unfold listenRequests at q2 l2
      simp [listenRequests, q2, l2]
    · unfold sshDials at l1
      simp [sshDials, l1]
    · unfold listenRequests at l2
      simp [listenRequests, l2]

/-! ## The configuration file -/

theorem fieldValue_unexported (f : FieldSpec) (kvs : List (String × Yaml))
    (h : isExported f.goName = false) : fieldValue f kvs = none := by
  simp [fieldValue, h]

/-- No key of the mapping under `database` reaches a field of the inner struct. -/
theorem decodeDatabase_id (c : Config) (kvs : List (String × Yaml)) :
    decodeDatabase c kvs = .ok c := by
  unfold decodeDatabase
  rw [fieldValue_unexported (fieldNamed databaseFields "atpHostname") kvs (by decide),
    fieldValue_unexported (fieldNamed databaseFields "atpPort") kvs (by decide),
    fieldValue_unexported (fieldNamed databaseFields "atpUsername") kvs (by decide),
    fieldValue_unexported (fieldNamed databaseFields "atpWalletPath") kvs (by decide),
    fieldValue_unexported (fieldNamed databaseFields "atpWalletName") kvs (by decide),
    fieldValue_unexported (fieldNamed databaseFields "atpPassword") kvs (by decide)]
  rfl

/-- Whatever document `tunnel.yaml` holds, the `Config` that `yaml.Unmarshal` leaves
behind is the one it was given: no key of the file reaches a field. -/
theorem decodeConfig_unchanged (c c1 : Config) (doc : Yaml)
    (h : decodeConfig c doc = .ok c1) : c1 = c := by
  cases doc with
  | null => simp [decodeConfig] at h; exact h.symm
  | str s => simp [decodeConfig] at h
  | int i => simp [decodeConfig] at h
  | map kvs =>
    simp only [decodeConfig] at h
    rw [fieldValue_unexported (fieldNamed configFields "sshHostname") kvs (by decide),
      fieldValue_unexported (fieldNamed configFields "sshPort") kvs (by decide),
      fieldValue_unexported (fieldNamed configFields "sshUsername") kvs (by decide)] at h
    simp only [decodeString, decodeInt, bind, Except.bind] at h
    split at h
    · cases h; rfl
    · cases h; rfl
    · rw [decodeDatabase_id] at h
      cases h; rfl
    · cases h
    · cases h

/-- C10 fails on the code: with a `tunnel.yaml` that sets every key, the decoded
`Config` is the zero value, so `main` reads the wallet at the empty path and ends
there; where that read succeeds it dials the session at `:0` as the empty user and
hands the zero configuration to the forwarder, which dials `:0`. -/
theorem config_keys_not_decoded :
    decodeConfig Config.zero sampleDoc = .ok Config.zero ∧
    (main diskWorld).1 =
      [.readFile "tunnel.yaml" true, .yamlUnmarshal true, .userCurrent true,
       .netDial "unix" "/home/alice/.ssh/agent.sock" true, .agentSigners true,
       .close .agentConn, .readFile "" false,
       .fatal "Failed to read wallet file: no such file or directory"] ∧
    Event.sshDial "tcp" ":0" "" (.publicKeys ["id_ed25519"]) true ∈ (main openWorld).1 ∧
    Event.sshDial "tcp" "bastion.example.com:22" "alice" (.publicKeys ["id_ed25519"]) true
      ∉ (main openWorld).1 ∧
    dispatched (main openWorld).1 = [⟨1, [7, 7], Config.zero⟩, ⟨2, [7, 7], Config.zero⟩] ∧
    remoteAddr Config.zero = ":0" :=
  ⟨rfl, by decide, by decide, by decide, by decide, by decide⟩

/-! ## `handleConnection` -/

theorem prefix_grow {α : Type} {p l : List α} (m : List α) (h : p <+: l) : p <+: l ++ m :=
  h.trans (List.prefix_append l m)

theorem inv_init (w : ConnWorld) (wallet : Bytes) (cfg : Config) :
    Inv w wallet cfg (State.init w) := by
  constructor <;> simp [State.init]

theorem inv_stepHandler (w : ConnWorld) (wallet : Bytes) (cfg : Config) (s : State)
    (h : Inv w wallet cfg s) (hh : s.halted = false) :
    Inv w wallet cfg (stepHandler w wallet cfg s) := by
  obtain ⟨i1, i2, i3, i4, i5, i6, i7, i8, i9⟩ := h
  unfold stepHandler
  cases hp : s.hpc with
  | dial =>
    simp only []
    cases hd : w.dial (remoteAddr cfg) with
    | error e =>
      simp only [hp] at *
      constructor <;> simp_all
    | ok u =>
      simp only [hp] at *
      constructor <;> simp_all
  | dialFailed => simp_all
  | writeFailed => simp_all
  | returned => exact ⟨i1, i2, i3, i4, i5, i6, i7, i8, i9⟩
  | writeWallet =>
    simp only []
    simp only [hp] at *
    rcases hw : nextWrite s.targetWrites with ⟨r, rest⟩
    cases r with
    | ok =>
      simp only []
      constructor <;> simp_all [opening]
    | fail n =>
      simp only []
      constructor <;> simp_all [List.take_prefix]
  | spawnFirst =>
    simp only [hp] at *
    constructor <;> simp_all [prefix_grow]
  | spawnSecond =>
    simp only [hp] at *
    constructor <;> simp_all [prefix_grow]
  | deferred =>
    simp only [hp] at *
    constructor <;> simp_all [prefix_grow]

theorem inv_afterRound_first (w : ConnWorld) (wallet : Bytes) (cfg : Config) (s : State)
    (st : ReadStatus) (h : Inv w wallet cfg s) (hh : s.halted = false)
    (hr : s.r1 ≠ .idle) :
    Inv w wallet cfg (afterRound .targetToAccepted st s) := by
  obtain ⟨i1, i2, i3, i4, i5, i6, i7, i8, i9⟩ := h
  have hph := i1 hr
  cases st <;> rcases hph with hph | hph | hph <;> constructor <;>
    simp_all [afterRound, copyEnds, copyFails, State.setRelay, prefix_grow]

theorem inv_copyFails_first (w : ConnWorld) (wallet : Bytes) (cfg : Config) (s : State)
    (h : Inv w wallet cfg s) (hh : s.halted = false) (hr : s.r1 ≠ .idle) :
    Inv w wallet cfg (copyFails .targetToAccepted s) := by
  obtain ⟨i1, i2, i3, i4, i5, i6, i7, i8, i9⟩ := h
  have hph := i1 hr
  rcases hph with hph | hph | hph <;> constructor <;>
    simp_all [copyFails, State.setRelay, prefix_grow]

theorem inv_frame {w : ConnWorld} {wallet : Bytes} {cfg : Config} {s s' : State}
    (h : Inv w wallet cfg s) (m : List Event)
    (e1 : s'.halted = s.halted) (e2 : s'.hpc = s.hpc) (e3 : s'.r1 = s.r1) (e4 : s'.r2 = s.r2)
    (e5 : s'.targetClosed = s.targetClosed) (e6 : s'.targetGot = s.targetGot)
    (e7 : s'.fromAccepted = s.fromAccepted) (e8 : s'.trace = s.trace ++ m)
    (hm : Event.close .accepted ∉ m)
    (hs : (s.hpc = .spawnSecond ∨ s.hpc = .deferred ∨ s.hpc = .returned) ∨ m = []) :
    Inv w wallet cfg s' := by
  obtain ⟨i1, i2, i3, i4, i5, i6, i7, i8, i9⟩ := h
  constructor
  · rw [e3, e2]; exact i1
  · rw [e4, e2]; exact i2
  · rw [e1, e2, e3, e4]; exact i3
  · rw [e5, e2]; exact i4
  · rw [e2]; exact i5
  · rw [e2]; exact i6
  · rw [e2, e4, e6, e7]; exact i7
  · rw [e2, e8]
    rcases hs with (hp | hp | hp) | hm0
    · rw [hp] at i8 ⊢
      exact prefix_grow m i8
    · rw [hp] at i8 ⊢
      exact prefix_grow m i8
    · rw [hp] at i8 ⊢
      exact prefix_grow m i8
    · rw [hm0, List.append_nil]
      exact i8
  · rw [e8]
    intro hmem
    rcases List.mem_append.1 hmem with hmem | hmem
    · exact i9 hmem
    · exact hm hmem

theorem inv_writing_first (w : ConnWorld) (wallet : Bytes) (cfg : Config) (s : State)
    (chunk : Bytes) (st : ReadStatus) (h : Inv w wallet cfg s) (hh : s.halted = false)
    (hr : s.r1 ≠ .idle) :
    Inv w wallet cfg (s.setRelay .targetToAccepted (.writing chunk st)) := by
  obtain ⟨i1, i2, i3, i4, i5, i6, i7, i8, i9⟩ := h
  have hph := i1 hr
  rcases hph with hph | hph | hph <;> constructor <;> simp_all [State.setRelay]

theorem inv_stepRelay_first (w : ConnWorld) (wallet : Bytes) (cfg : Config) (s : State)
    (h : Inv w wallet cfg s) (hh : s.halted = false) :
    Inv w wallet cfg (stepRelay .targetToAccepted s) := by
  unfold stepRelay
  simp only [State.relay]
  cases hr : s.r1 with
  | idle => exact h
  | exited => exact h
  | failed => exact h
  | reading =>
    have hne : s.r1 ≠ .idle := by simp [hr]
    simp only [readSource]
    by_cases hc : s.targetClosed = true
    · rw [if_pos hc]
      exact inv_afterRound_first w wallet cfg s .err h hh hne
    · rw [if_neg hc]
      cases hreads : s.targetReads with
      | nil => exact h
      | cons r rest =>
        have h1 : Inv w wallet cfg
            { s with targetReads := rest, fromTarget := s.fromTarget ++ r.data } :=
          inv_frame h [] rfl rfl rfl rfl rfl rfl rfl (by simp) (by simp) (Or.inr rfl)
        by_cases hd : r.data = []
        · simp only [hd, if_true]
          have := inv_afterRound_first w wallet cfg _ r.status h1 hh hne
          rw [hd] at this
          exact this
        · simp only [hd, if_false]
          exact inv_writing_first w wallet cfg _ r.data r.status h1 hh hne
  | writing chunk st =>
    have hne : s.r1 ≠ .idle := by simp [hr]
    simp only [writeDest]
    have h1 : ∀ b, Inv w wallet cfg
        { s with acceptedWrites := (nextWrite s.acceptedWrites).2,
                 acceptedGot := s.acceptedGot ++ delivered chunk (nextWrite s.acceptedWrites).1,
                 trace := s.trace ++ [.write .accepted chunk b] } := by
      intro b
      exact inv_frame h [.write .accepted chunk b] rfl rfl rfl rfl rfl rfl rfl rfl (by simp)
        (Or.inl (h.first hne))
    cases hb : ((nextWrite s.acceptedWrites).1 == WriteResult.ok) with
    | true =>
      simp only []
      exact inv_afterRound_first w wallet cfg _ st (h1 true) hh hne
    | false =>
      simp only []
      exact inv_copyFails_first w wallet cfg _ (h1 false) hh hne

theorem inv_second {w : ConnWorld} {wallet : Bytes} {cfg : Config} {s s' : State}
    (h : Inv w wallet cfg s) (hh : s.halted = false) (m : List Event)
    (hph : s.hpc = .deferred ∨ s.hpc = .returned)
    (e2 : s'.hpc = s.hpc) (e3 : s'.r1 = s.r1) (e5 : s'.targetClosed = s.targetClosed)
    (e8 : s'.trace = s.trace ++ m) (hm : Event.close .accepted ∉ m)
    (hhalt : s'.halted = true ↔ s'.r2 = .failed)
    (hbytes : ∃ done, s'.targetGot = wallet ++ done ∧
        (match s'.r2 with
         | .failed => done <+: s'.fromAccepted
         | .writing chunk _ => done ++ chunk = s'.fromAccepted
         | _ => done = s'.fromAccepted)) :
    Inv w wallet cfg s' := by
  obtain ⟨i1, i2, i3, i4, i5, i6, i7, i8, i9⟩ := h
  have hr1 : s.r1 ≠ .failed := by
    intro hf
    have := i3.2 (Or.inr (Or.inr (Or.inl hf)))
    rw [hh] at this
    cases this
  constructor
  · rw [e3, e2]; exact i1
  · intro _
    rw [e2]; exact hph
  · rw [e2, e3, hhalt]
    rcases hph with hp | hp <;> simp [hp, hr1]
  · rw [e5, e2]; exact i4
  · rw [e2]; exact i5
  · rw [e2]; exact i6
  · rw [e2]
    rcases hph with hp | hp <;> rw [hp] <;> exact hbytes
  · rw [e2, e8]
    rcases hph with hp | hp
    · rw [hp] at i8 ⊢
      exact prefix_grow m i8
    · rw [hp] at i8 ⊢
      exact prefix_grow m i8
  · rw [e8]
    intro hmem
    rcases List.mem_append.1 hmem with hmem | hmem
    · exact i9 hmem
    · exact hm hmem

theorem inv_done {w : ConnWorld} {wallet : Bytes} {cfg : Config} {s : State}
    (h : Inv w wallet cfg s) (hph : s.hpc = .deferred ∨ s.hpc = .returned) :
    ∃ done, s.targetGot = wallet ++ done ∧
        (match s.r2 with
         | .failed => done <+: s.fromAccepted
         | .writing chunk _ => done ++ chunk = s.fromAccepted
         | _ => done = s.fromAccepted) := by
  have := h.bytes
  rcases hph with hp | hp <;> rw [hp] at this <;> exact this

theorem inv_afterRound_second (w : ConnWorld) (wallet : Bytes) (cfg : Config) (s s1 : State)
    (st : ReadStatus) (h : Inv w wallet cfg s) (hh : s.halted = false)
    (hr : s.r2 ≠ .idle) (m : List Event)
    (e1 : s1.halted = s.halted) (e2 : s1.hpc = s.hpc) (e3 : s1.r1 = s.r1)
    (e5 : s1.targetClosed = s.targetClosed)
    (e8 : s1.trace = s.trace ++ m) (hm : Event.close .accepted ∉ m)
    (hb : ∃ done, s1.targetGot = wallet ++ done ∧ done = s1.fromAccepted) :
    Inv w wallet cfg (afterRound .acceptedToTarget st s1) := by
  have hph := h.second hr
  obtain ⟨done, hd1, hd2⟩ := hb
  cases st with
  | ok =>
    refine inv_second h hh m hph ?_ ?_ ?_ ?_ hm ?_ ?_
    · simp [afterRound, State.setRelay, e2]
    · simp [afterRound, State.setRelay, e3]
    · simp [afterRound, State.setRelay, e5]
    · simp [afterRound, State.setRelay, e8]
    · simp [afterRound, State.setRelay, e1, hh]
    · exact ⟨done, by simpa [afterRound, State.setRelay] using hd1,
        by simpa [afterRound, State.setRelay] using hd2⟩
  | eof =>
    refine inv_second h hh (m ++ [.copyReturn .acceptedToTarget true]) hph ?_ ?_ ?_ ?_ ?_ ?_ ?_
    · simp [afterRound, copyEnds, State.setRelay, e2]
    · simp [afterRound, copyEnds, State.setRelay, e3]
    · simp [afterRound, copyEnds, State.setRelay, e5]
    · simp [afterRound, copyEnds, State.setRelay, e8]
    · simpa using hm
    · simp [afterRound, copyEnds, State.setRelay, e1, hh]
    · exact ⟨done, by simpa [afterRound, copyEnds, State.setRelay] using hd1,
        by simpa [afterRound, copyEnds, State.setRelay] using hd2⟩
  | err =>
    refine inv_second h hh (m ++ [.copyReturn .acceptedToTarget false,
      .fatal (copyFailure .acceptedToTarget)]) hph ?_ ?_ ?_ ?_ ?_ ?_ ?_
    · simp [afterRound, copyFails, State.setRelay, e2]
    · simp [afterRound, copyFails, State.setRelay, e3]
    · simp [afterRound, copyFails, State.setRelay, e5]
    · simp [afterRound, copyFails, State.setRelay, e8]
    · simpa using hm
    · simp [afterRound, copyFails, State.setRelay]
    · refine ⟨done, by simpa [afterRound, copyFails, State.setRelay] using hd1, ?_⟩
      simp only [afterRound, copyFails, State.setRelay]
      rw [hd2]

theorem inv_copyFails_second (w : ConnWorld) (wallet : Bytes) (cfg : Config) (s s1 : State)
    (h : Inv w wallet cfg s) (hh : s.halted = false)
    (hr : s.r2 ≠ .idle) (m : List Event)
    (e2 : s1.hpc = s.hpc) (e3 : s1.r1 = s.r1)
    (e5 : s1.targetClosed = s.targetClosed)
    (e8 : s1.trace = s.trace ++ m) (hm : Event.close .accepted ∉ m)
    (hb : ∃ done, s1.targetGot = wallet ++ done ∧ done <+: s1.fromAccepted) :
    Inv w wallet cfg (copyFails .acceptedToTarget s1) := by
  have hph := h.second hr
  obtain ⟨done, hd1, hd2⟩ := hb
  refine inv_second h hh (m ++ [.copyReturn .acceptedToTarget false,
    .fatal (copyFailure .acceptedToTarget)]) hph ?_ ?_ ?_ ?_ ?_ ?_ ?_
  · simp [copyFails, State.setRelay, e2]
  · simp [copyFails, State.setRelay, e3]
  · simp [copyFails, State.setRelay, e5]
  · simp [copyFails, State.setRelay, e8]
  · simpa using hm
  · simp [copyFails, State.setRelay]
  · exact ⟨done, by simpa [copyFails, State.setRelay] using hd1,
      by simpa [copyFails, State.setRelay] using hd2⟩

theorem inv_stepRelay_second (w : ConnWorld) (wallet : Bytes) (cfg : Config) (s : State)
    (h : Inv w wallet cfg s) (hh : s.halted = false) :
    Inv w wallet cfg (stepRelay .acceptedToTarget s) := by
  unfold stepRelay
  simp only [State.relay]
  cases hr : s.r2 with
  | idle => exact h
  | exited => exact h
  | failed => exact h
  | reading =>
    have hne : s.r2 ≠ .idle := by simp [hr]
    have hph := h.second hne
    obtain ⟨done, hd1, hd2⟩ := inv_done h hph
    rw [hr] at hd2
    simp only [] at hd2
    simp only [readSource]
    cases hreads : s.acceptedReads with
    | nil => exact h
    | cons r rest =>
      simp only []
      by_cases hd : r.data = []
      · rw [if_pos hd]
        refine inv_afterRound_second w wallet cfg s _ r.status h hh hne [] rfl rfl rfl rfl
          (by simp) (by simp) ⟨done, hd1, ?_⟩
        simp [hd, hd2]
      · rw [if_neg hd]
        refine inv_second h hh [] hph ?_ ?_ ?_ ?_ (by simp) ?_ ?_
        · simp [State.setRelay]
        · simp [State.setRelay]
        · simp [State.setRelay]
        · simp [State.setRelay]
        · simp [State.setRelay, hh]
        · exact ⟨done, by simpa [State.setRelay] using hd1, by simp [State.setRelay, hd2]⟩
  | writing chunk st =>
    have hne : s.r2 ≠ .idle := by simp [hr]
    have hph := h.second hne
    obtain ⟨done, hd1, hd2⟩ := inv_done h hph
    rw [hr] at hd2
    simp only [] at hd2
    simp only [writeDest]
    by_cases hc : s.targetClosed = true
    · rw [if_pos hc]
      simp only []
      refine inv_copyFails_second w wallet cfg s _ h hh hne [.write .target chunk false]
        rfl rfl rfl rfl (by simp) ⟨done, hd1, ?_⟩
      simp only []
      rw [← hd2]
      exact List.prefix_append done chunk
    · rw [if_neg hc]
      cases hw : (nextWrite s.targetWrites).1 with
      | ok =>
        have hb : ((WriteResult.ok == WriteResult.ok) = true) := by decide
        simp only [hb, delivered]
        refine inv_afterRound_second w wallet cfg s _ st h hh hne [.write .target chunk true]
          rfl rfl rfl rfl rfl (by simp) ⟨done ++ chunk, ?_, ?_⟩
        · simp [hd1]
        · simp [hd2]
      | fail n =>
        have hb : ((WriteResult.fail n == WriteResult.ok) = false) := by
          simp
        simp only [hb, delivered]
        refine inv_copyFails_second w wallet cfg s _ h hh hne [.write .target chunk false]
          rfl rfl rfl rfl (by simp) ⟨done ++ chunk.take n, ?_, ?_⟩
        · simp [hd1]
        · simp only []
          rw [← hd2]
          exact (List.prefix_append_right_inj done).2 (List.take_prefix n chunk)

theorem inv_step (w : ConnWorld) (wallet : Bytes) (cfg : Config) (s : State) (t : Tid)
    (h : Inv w wallet cfg s) : Inv w wallet cfg (step w wallet cfg s t) := by
  unfold step
  cases hh : s.halted with
  | true => simpa using h
  | false =>
    simp only [Bool.false_eq_true, if_false]
    cases t with
    | handler => exact inv_stepHandler w wallet cfg s h hh
    | relay d =>
      cases d with
      | targetToAccepted => exact inv_stepRelay_first w wallet cfg s h hh
      | acceptedToTarget => exact inv_stepRelay_second w wallet cfg s h hh

theorem inv_foldl (w : ConnWorld) (wallet : Bytes) (cfg : Config) (sched : List Tid)
    (s : State) (h : Inv w wallet cfg s) :
    Inv w wallet cfg (sched.foldl (step w wallet cfg) s) := by
  induction sched generalizing s with
  | nil => exact h
  | cons t rest ih => exact ih _ (inv_step w wallet cfg s t h)

theorem inv_run (w : ConnWorld) (wallet : Bytes) (cfg : Config) (sched : List Tid) :
    Inv w wallet cfg (handleConnection w wallet cfg sched) :=
  inv_foldl w wallet cfg sched _ (inv_init w wallet cfg)

theorem opening_prefix_pre (wallet : Bytes) (cfg : Config) (pre post : List Event) (d : Dir)
    (h : opening wallet cfg <+: pre ++ .goRelay d :: post) : opening wallet cfg <+: pre := by
  unfold opening at h ⊢
  cases pre with
  | nil => simp at h
  | cons x pre1 =>
    cases pre1 with
    | nil => simp at h
    | cons y pre2 =>
      simp only [List.cons_append, List.cons_prefix_cons] at h ⊢
      exact ⟨h.1, h.2.1, List.nil_prefix⟩

theorem goRelay_after_opening (w : ConnWorld) (wallet : Bytes) (cfg : Config) (s : State)
    (h : Inv w wallet cfg s) (pre post : List Event) (d : Dir)
    (ht : s.trace = pre ++ .goRelay d :: post) : opening wallet cfg <+: pre := by
  have hs := h.shape
  have hmem : Event.goRelay d ∈ s.trace := by rw [ht]; simp
  cases hp : s.hpc <;> rw [hp] at hs <;> simp only [] at hs
  case dial => rw [hs] at hmem; simp at hmem
  case dialFailed => obtain ⟨msg, hs⟩ := hs; rw [hs] at hmem; simp at hmem
  case writeWallet => rw [hs] at hmem; simp at hmem
  case writeFailed => obtain ⟨msg, hs⟩ := hs; rw [hs] at hmem; simp at hmem
  all_goals
    rw [ht] at hs
    exact opening_prefix_pre wallet cfg pre post d hs

theorem started_bytes (w : ConnWorld) (wallet : Bytes) (cfg : Config) (s : State)
    (h : Inv w wallet cfg s)
    (hph : s.hpc = .spawnSecond ∨ s.hpc = .deferred ∨ s.hpc = .returned) :
    w.dial (remoteAddr cfg) = .ok () ∧
    ∃ done, s.targetGot = wallet ++ done ∧
        (match s.r2 with
         | .failed => done <+: s.fromAccepted
         | .writing chunk _ => done ++ chunk = s.fromAccepted
         | _ => done = s.fromAccepted) := by
  have hb := h.bytes
  have hd := h.dialOk
  rcases hph with hp | hp | hp <;> rw [hp] at hb hd <;> exact ⟨hd (by simp) (by simp), hb⟩

theorem target_holds_initial (w : ConnWorld) (wallet : Bytes) (cfg : Config) (s : State)
    (h : Inv w wallet cfg s) : s.targetGot <+: wallet ++ s.fromAccepted := by
  have hb := h.bytes
  have key : (∃ done, s.targetGot = wallet ++ done ∧
        (match s.r2 with
         | .failed => done <+: s.fromAccepted
         | .writing chunk _ => done ++ chunk = s.fromAccepted
         | _ => done = s.fromAccepted)) → s.targetGot <+: wallet ++ s.fromAccepted := by
    rintro ⟨done, h1, h2⟩
    rw [h1]
    apply (List.prefix_append_right_inj wallet).2
    cases hr : s.r2 <;> rw [hr] at h2 <;> simp only [] at h2
    case failed => exact h2
    case writing chunk st => rw [← h2]; exact List.prefix_append done chunk
    all_goals rw [h2]
  cases hp : s.hpc <;> rw [hp] at hb <;> simp only [] at hb
  case dial => rw [hb.1]; exact List.nil_prefix
  case dialFailed => rw [hb.1]; exact List.nil_prefix
  case writeWallet => rw [hb.1]; exact List.nil_prefix
  case writeFailed => rw [hb.2, List.append_nil]; exact hb.1
  all_goals exact key hb

theorem logged_init (w : ConnWorld) (cfg : Config) : Logged cfg (State.init w) := by
  constructor <;> simp [State.init]

theorem logged_stepHandler (w : ConnWorld) (wallet : Bytes) (cfg : Config) (s : State)
    (hi : Inv w wallet cfg s) (h : Logged cfg s) (hh : s.halted = false) :
    Logged cfg (stepHandler w wallet cfg s) := by
  obtain ⟨l1, l2, l3, l4, l5, l6⟩ := h
  have i1 := hi.first
  have i2 := hi.second
  unfold stepHandler
  cases hp : s.hpc with
  | dial =>
    simp only []
    cases hd : w.dial (remoteAddr cfg) <;> constructor <;> simp_all
  | dialFailed => exact ⟨l1, l2, l3, l4, l5, l6⟩
  | writeFailed => exact ⟨l1, l2, l3, l4, l5, l6⟩
  | returned => exact ⟨l1, l2, l3, l4, l5, l6⟩
  | writeWallet =>
    simp only []
    rcases hw : nextWrite s.targetWrites with ⟨r, rest⟩
    cases r <;> constructor <;> simp_all
  | spawnFirst => constructor <;> simp_all
  | spawnSecond => constructor <;> simp_all
  | deferred => constructor <;> simp_all

theorem logged_frame {cfg : Config} {s s' : State} (h : Logged cfg s) (m : List Event)
    (e1 : s'.halted = s.halted) (e2 : s'.hpc = s.hpc) (e3 : s'.r1 = s.r1) (e4 : s'.r2 = s.r2)
    (e8 : s'.trace = s.trace ++ m)
    (hm : ∀ e ∈ m, ∃ hd data ok, e = Event.write hd data ok) : Logged cfg s' := by
  obtain ⟨l1, l2, l3, l4, l5, l6⟩ := h
  have hno : ∀ e, (∀ hd data ok, e ≠ Event.write hd data ok) → (e ∈ s.trace ++ m ↔ e ∈ s.trace) := by
    intro e he
    rw [List.mem_append]
    constructor
    · rintro (h | h)
      · exact h
      · obtain ⟨hd, data, ok, heq⟩ := hm e h
        exact absurd heq (he hd data ok)
    · exact Or.inl
  constructor
  · rw [e1, e8, l1]
    constructor
    · rintro ⟨msg, hmem⟩
      exact ⟨msg, (hno _ (by simp)).2 hmem⟩
    · rintro ⟨msg, hmem⟩
      exact ⟨msg, (hno _ (by simp)).1 hmem⟩
  · rw [e2, e8, hno _ (by simp)]; exact l2
  · rw [e3, e8, hno _ (by simp)]; exact l3
  · rw [e4, e8, hno _ (by simp)]; exact l4
  · rw [e3, e8, hno _ (by simp)]; exact l5
  · rw [e4, e8, hno _ (by simp)]; exact l6

theorem logged_afterRound (cfg : Config) (s : State) (d : Dir) (st : ReadStatus)
    (h : Logged cfg s) (hh : s.halted = false)
    (hr : s.relay d = .reading ∨ ∃ chunk st1, s.relay d = .writing chunk st1) :
    Logged cfg (afterRound d st s) := by
  obtain ⟨l1, l2, l3, l4, l5, l6⟩ := h
  cases d <;> cases st <;> rcases hr with hr | ⟨chunk, st1, hr⟩ <;>
    simp only [State.relay] at hr <;> constructor <;>
    simp_all [afterRound, copyEnds, copyFails, State.setRelay]

theorem logged_copyFails (cfg : Config) (s : State) (d : Dir)
    (h : Logged cfg s) (hh : s.halted = false)
    (hr : s.relay d = .reading ∨ ∃ chunk st1, s.relay d = .writing chunk st1) :
    Logged cfg (copyFails d s) := by
  obtain ⟨l1, l2, l3, l4, l5, l6⟩ := h
  cases d <;> rcases hr with hr | ⟨chunk, st1, hr⟩ <;>
    simp only [State.relay] at hr <;> constructor <;>
    simp_all [copyFails, State.setRelay]

theorem logged_writing (cfg : Config) (s : State) (d : Dir) (chunk : Bytes) (st : ReadStatus)
    (h : Logged cfg s) (hr : s.relay d = .reading) :
    Logged cfg (s.setRelay d (.writing chunk st)) := by
  obtain ⟨l1, l2, l3, l4, l5, l6⟩ := h
  cases d <;> simp only [State.relay] at hr <;> constructor <;> simp_all [State.setRelay]

theorem logged_readSource (cfg : Config) (s s1 : State) (d : Dir) (r : ReadResult)
    (h : Logged cfg s) (hs : readSource d s = some (r, s1)) :
    Logged cfg s1 ∧ s1.halted = s.halted ∧ s1.relay d = s.relay d := by
  cases d with
  | targetToAccepted =>
    simp only [readSource] at hs
    by_cases hc : s.targetClosed = true
    · rw [if_pos hc] at hs
      simp only [Option.some.injEq, Prod.mk.injEq] at hs
      rw [← hs.2]
      exact ⟨h, rfl, rfl⟩
    · rw [if_neg hc] at hs
      cases hreads : s.targetReads with
      | nil => rw [hreads] at hs; simp at hs
      | cons x rest =>
        rw [hreads] at hs
        simp only [Option.some.injEq, Prod.mk.injEq] at hs
        rw [← hs.2]
        exact ⟨logged_frame h [] rfl rfl rfl rfl (by simp) (by simp), rfl, rfl⟩
  | acceptedToTarget =>
    simp only [readSource] at hs
    cases hreads : s.acceptedReads with
    | nil => rw [hreads] at hs; simp at hs
    | cons x rest =>
      rw [hreads] at hs
      simp only [Option.some.injEq, Prod.mk.injEq] at hs
      rw [← hs.2]
      exact ⟨logged_frame h [] rfl rfl rfl rfl (by simp) (by simp), rfl, rfl⟩

theorem logged_writeDest (cfg : Config) (s : State) (d : Dir) (chunk : Bytes)
    (h : Logged cfg s) :
    Logged cfg (writeDest d chunk s).2 ∧ (writeDest d chunk s).2.halted = s.halted ∧
    (writeDest d chunk s).2.relay d = s.relay d := by
  cases d with
  | targetToAccepted =>
    simp only [writeDest]
    refine ⟨logged_frame h [.write .accepted chunk _] rfl rfl rfl rfl rfl ?_,
      by trivial, by trivial⟩
    intro e he
    rw [List.mem_singleton] at he
    exact ⟨_, _, _, he⟩
  | acceptedToTarget =>
    simp only [writeDest]
    by_cases hc : s.targetClosed = true
    · rw [if_pos hc]
      refine ⟨logged_frame h [.write .target chunk false] rfl rfl rfl rfl rfl ?_, rfl, rfl⟩
      intro e he
      rw [List.mem_singleton] at he
      exact ⟨_, _, _, he⟩
    · rw [if_neg hc]
      refine ⟨logged_frame h [.write .target chunk _] rfl rfl rfl rfl rfl ?_, rfl, rfl⟩
      intro e he
      rw [List.mem_singleton] at he
      exact ⟨_, _, _, he⟩

theorem logged_stepRelay (cfg : Config) (s : State) (d : Dir)
    (h : Logged cfg s) (hh : s.halted = false) : Logged cfg (stepRelay d s) := by
  unfold stepRelay
  cases hr : s.relay d with
  | idle => exact h
  | exited => exact h
  | failed => exact h
  | reading =>
    simp only []
    cases hs : readSource d s with
    | none => exact h
    | some p =>
      obtain ⟨r, s1⟩ := p
      obtain ⟨h1, hh1, hr1⟩ := logged_readSource cfg s s1 d r h hs
      simp only []
      by_cases hd : r.data = []
      · rw [if_pos hd]
        exact logged_afterRound cfg s1 d r.status h1 (hh1.trans hh) (Or.inl (hr1.trans hr))
      · rw [if_neg hd]
        exact logged_writing cfg s1 d r.data r.status h1 (hr1.trans hr)
  | writing chunk st =>
    simp only []
    obtain ⟨h1, hh1, hr1⟩ := logged_writeDest cfg s d chunk h
    rcases hw : writeDest d chunk s with ⟨b, s1⟩
    rw [hw] at h1 hh1 hr1
    simp only [] at h1 hh1 hr1
    cases b with
    | true =>
      simp only []
      exact logged_afterRound cfg s1 d st h1 (hh1.trans hh) (Or.inr ⟨chunk, st, hr1.trans hr⟩)
    | false =>
      simp only []
      exact logged_copyFails cfg s1 d h1 (hh1.trans hh) (Or.inr ⟨chunk, st, hr1.trans hr⟩)

theorem logged_foldl (w : ConnWorld) (wallet : Bytes) (cfg : Config) (sched : List Tid)
    (s : State) (hi : Inv w wallet cfg s) (h : Logged cfg s) :
    Logged cfg (sched.foldl (step w wallet cfg) s) := by
  induction sched generalizing s with
  | nil => exact h
  | cons t rest ih =>
    refine ih _ (inv_step w wallet cfg s t hi) ?_
    unfold step
    cases hh : s.halted with
    | true => simpa using h
    | false =>
      simp only [Bool.false_eq_true, if_false]
      cases t with
      | handler => exact logged_stepHandler w wallet cfg s hi h hh
      | relay d => exact logged_stepRelay cfg s d h hh

theorem logged_run (w : ConnWorld) (wallet : Bytes) (cfg : Config) (sched : List Tid) :
    Logged cfg (handleConnection w wallet cfg sched) :=
  logged_foldl w wallet cfg sched _ (inv_init w wallet cfg) (logged_init w cfg)

theorem foldl_halted (w : ConnWorld) (wallet : Bytes) (cfg : Config) (sched : List Tid)
    (s : State) (h : s.halted = true) : sched.foldl (step w wallet cfg) s = s := by
  induction sched with
  | nil => rfl
  | cons t rest ih => simp [List.foldl, step, h, ih]

theorem step_relay_idle (w : ConnWorld) (wallet : Bytes) (cfg : Config) (s : State) (d : Dir)
    (h1 : s.r1 = .idle) (h2 : s.r2 = .idle) : step w wallet cfg s (.relay d) = s := by
  unfold step
  split
  · rfl
  · cases d <;> simp [stepRelay, State.relay, h1, h2]

theorem dial_failure_halts (w : ConnWorld) (wallet : Bytes) (cfg : Config) (e : GoError)
    (he : w.dial (remoteAddr cfg) = .error e) (sched : List Tid) (s : State)
    (h0 : s.halted = false) (hp : s.hpc = .dial) (h1 : s.r1 = .idle) (h2 : s.r2 = .idle)
    (hm : Tid.handler ∈ sched) :
    (sched.foldl (step w wallet cfg) s).halted = true ∧
    (sched.foldl (step w wallet cfg) s).hpc = .dialFailed := by
  induction sched with
  | nil => simp at hm
  | cons t rest ih =>
    cases t with
    | relay d =>
      simp only [List.foldl]
      rw [step_relay_idle w wallet cfg s d h1 h2]
      apply ih
      simpa using hm
    | handler =>
      simp only [List.foldl]
      have hs : (step w wallet cfg s .handler).halted = true ∧
          (step w wallet cfg s .handler).hpc = .dialFailed := by
        simp [step, h0, stepHandler, hp, he]
      rw [foldl_halted w wallet cfg rest _ hs.1]
      exact hs

theorem write_failure_halts_aux (w : ConnWorld) (wallet : Bytes) (cfg : Config) (n : Nat)
    (rest : List WriteResult) (sched : List Tid) (s : State)
    (hw : s.targetWrites = .fail n :: rest)
    (h0 : s.halted = false) (hp : s.hpc = .writeWallet) (h1 : s.r1 = .idle) (h2 : s.r2 = .idle)
    (hm : Tid.handler ∈ sched) :
    (sched.foldl (step w wallet cfg) s).halted = true ∧
    (sched.foldl (step w wallet cfg) s).hpc = .writeFailed := by
  induction sched with
  | nil => simp at hm
  | cons t tl ih =>
    cases t with
    | relay d =>
      simp only [List.foldl]
      rw [step_relay_idle w wallet cfg s d h1 h2]
      apply ih
      simpa using hm
    | handler =>
      simp only [List.foldl]
      have hs : (step w wallet cfg s .handler).halted = true ∧
          (step w wallet cfg s .handler).hpc = .writeFailed := by
        simp [step, h0, stepHandler, hp, hw, nextWrite]
      rw [foldl_halted w wallet cfg tl _ hs.1]
      exact hs

theorem write_failure_halts (w : ConnWorld) (wallet : Bytes) (cfg : Config) (n : Nat)
    (rest : List WriteResult)
    (hd : w.dial (remoteAddr cfg) = .ok ()) (sched : List Tid) (s : State)
    (hw : s.targetWrites = .fail n :: rest)
    (h0 : s.halted = false) (hp : s.hpc = .dial) (h1 : s.r1 = .idle) (h2 : s.r2 = .idle)
    (hm : 2 ≤ sched.count Tid.handler) :
    (sched.foldl (step w wallet cfg) s).halted = true ∧
    (sched.foldl (step w wallet cfg) s).hpc = .writeFailed := by
  induction sched with
  | nil => simp at hm
  | cons t tl ih =>
    cases t with
    | relay d =>
      simp only [List.foldl]
      rw [step_relay_idle w wallet cfg s d h1 h2]
      apply ih
      simpa using hm
    | handler =>
      simp only [List.foldl]
      have hm1 : Tid.handler ∈ tl := by
        have : 0 < tl.count Tid.handler := by
          rw [List.count_cons_self] at hm
          omega
        exact List.count_pos_iff.1 this
      apply write_failure_halts_aux w wallet cfg n rest tl _ _ _ _ _ _ hm1
      · simp [step, h0, stepHandler, hp, hd, hw]
      · simp [step, h0, stepHandler, hp, hd, h0]
      · simp [step, h0, stepHandler, hp, hd]
      · simp [step, h0, stepHandler, hp, hd, h1]
      · simp [step, h0, stepHandler, hp, hd, h2]

/-- C1, as stated, fails: the client sends `SELECT 1`, the target takes the wallet
and then resets; the relay reads `SELECT 1` from the accepted stream, its write
fails on the still open target and `log.Fatalf` ends the process, so the target
holds the wallet only. -/
theorem relay_bytes_lost_on_reset :
    (handleConnection resetWorld walletBytes dbConfig
      [.handler, .handler, .handler, .handler, .relay .acceptedToTarget,
       .relay .acceptedToTarget]).targetClosed = false ∧
    (handleConnection resetWorld walletBytes dbConfig
      [.handler, .handler, .handler, .handler, .relay .acceptedToTarget,
       .relay .acceptedToTarget]).fromAccepted = select1 ∧
    (handleConnection resetWorld walletBytes dbConfig
      [.handler, .handler, .handler, .handler, .relay .acceptedToTarget,
       .relay .acceptedToTarget]).targetGot = walletBytes ∧
    (handleConnection resetWorld walletBytes dbConfig
      [.handler, .handler, .handler, .handler, .relay .acceptedToTarget,
       .relay .acceptedToTarget]).targetGot ≠ walletBytes ++ select1 ∧
    (handleConnection resetWorld walletBytes dbConfig
      [.handler, .handler, .handler, .handler, .relay .acceptedToTarget,
       .relay .acceptedToTarget]).halted = true := by
  decide

/-- C1 (amended): in every run of `handleConnection`, under every schedule, each
`go` of a relay comes after the successful dial of the target and the successful
write of the whole wallet, which are the first two calls; once a relay has been
started the dial has succeeded and the target holds the whole wallet; the bytes the
target holds are always a prefix of the wallet, once, followed by the bytes read
from the accepted stream, and are exactly that when the copy towards the target has
returned nil. -/
theorem preamble_before_relay (w : ConnWorld) (wallet : Bytes) (cfg : Config)
    (sched : List Tid) :
    (∀ pre d post, (handleConnection w wallet cfg sched).trace = pre ++ .goRelay d :: post →
      opening wallet cfg <+: pre) ∧
    ((handleConnection w wallet cfg sched).r1 ≠ .idle ∨ (handleConnection w wallet cfg sched).r2 ≠ .idle →
      w.dial (remoteAddr cfg) = .ok () ∧ wallet <+: (handleConnection w wallet cfg sched).targetGot) ∧
    (handleConnection w wallet cfg sched).targetGot <+: wallet ++ (handleConnection w wallet cfg sched).fromAccepted ∧
    ((handleConnection w wallet cfg sched).r2 = .exited →
      (handleConnection w wallet cfg sched).targetGot = wallet ++ (handleConnection w wallet cfg sched).fromAccepted) := by
  have h := inv_run w wallet cfg sched
  refine ⟨?_, ?_, target_holds_initial w wallet cfg _ h, ?_⟩
  · intro pre d post ht
    exact goRelay_after_opening w wallet cfg _ h pre post d ht
  · intro hr
    have hph : (handleConnection w wallet cfg sched).hpc = .spawnSecond ∨
        (handleConnection w wallet cfg sched).hpc = .deferred ∨ (handleConnection w wallet cfg sched).hpc = .returned := by
      rcases hr with hr | hr
      · exact h.first hr
      · exact Or.inr (h.second hr)
    obtain ⟨hd, done, h1, _⟩ := started_bytes w wallet cfg _ h hph
    exact ⟨hd, by rw [h1]; exact List.prefix_append wallet done⟩
  · intro hr
    have hne : (handleConnection w wallet cfg sched).r2 ≠ .idle := by simp [hr]
    obtain ⟨_, done, h1, h2⟩ := started_bytes w wallet cfg _ h (Or.inr (h.second hne))
    rw [hr] at h2
    simp only [] at h2
    rw [h1, h2]

/-- C1 (amended), at a run in which the client sends `SELECT 1` and closes and the
relay towards the target runs to its end: the target holds the wallet followed by
`SELECT 1`. -/
theorem preamble_before_relay_query :
    (handleConnection queryWorld walletBytes dbConfig
      [.handler, .handler, .handler, .handler, .relay .acceptedToTarget,
       .relay .acceptedToTarget, .relay .acceptedToTarget]).r2 = .exited ∧
    opening walletBytes dbConfig <+: opening walletBytes dbConfig ∧
    (queryWorld.dial (remoteAddr dbConfig) = .ok () ∧
      walletBytes <+: (handleConnection queryWorld walletBytes dbConfig
        [.handler, .handler, .handler, .handler, .relay .acceptedToTarget,
         .relay .acceptedToTarget, .relay .acceptedToTarget]).targetGot) ∧
    (handleConnection queryWorld walletBytes dbConfig
      [.handler, .handler, .handler, .handler, .relay .acceptedToTarget,
       .relay .acceptedToTarget, .relay .acceptedToTarget]).targetGot
      = walletBytes ++ (handleConnection queryWorld walletBytes dbConfig
        [.handler, .handler, .handler, .handler, .relay .acceptedToTarget,
         .relay .acceptedToTarget, .relay .acceptedToTarget]).fromAccepted ∧
    (handleConnection queryWorld walletBytes dbConfig
      [.handler, .handler, .handler, .handler, .relay .acceptedToTarget,
       .relay .acceptedToTarget, .relay .acceptedToTarget]).targetGot
      = walletBytes ++ select1 :=
  ⟨by decide,
   (preamble_before_relay queryWorld walletBytes dbConfig
      [.handler, .handler, .handler, .handler, .relay .acceptedToTarget,
       .relay .acceptedToTarget, .relay .acceptedToTarget]).1
      (opening walletBytes dbConfig) .targetToAccepted
      [.goRelay .acceptedToTarget, .write .target select1 true,
       .copyReturn .acceptedToTarget true] (by decide),
   (preamble_before_relay queryWorld walletBytes dbConfig
      [.handler, .handler, .handler, .handler, .relay .acceptedToTarget,
       .relay .acceptedToTarget, .relay .acceptedToTarget]).2.1 (Or.inr (by decide)),
   (preamble_before_relay queryWorld walletBytes dbConfig
      [.handler, .handler, .handler, .handler, .relay .acceptedToTarget,
       .relay .acceptedToTarget, .relay .acceptedToTarget]).2.2.2 (by decide),
   by decide⟩

/-- In no run does `handleConnection` close the accepted stream. -/
theorem accepted_never_closed (w : ConnWorld) (wallet : Bytes) (cfg : Config)
    (sched : List Tid) : closed .accepted (handleConnection w wallet cfg sched).trace = 0 := by
  unfold closed
  exact List.count_eq_zero.2 (inv_run w wallet cfg sched).keepsAccepted

/-- C5: in every run of `handleConnection`, under every schedule, the process has
exited exactly when `log.Fatalf` was called, and that is exactly when the dial of
the target failed, the write of the wallet failed, or the copy of one of the two
relays returned an error; a failing dial ends the process at the first step of the
body and a failing wallet write at the second; and when both copies returned nil
the process has not exited. -/
theorem forward_errors_fatal (w : ConnWorld) (wallet : Bytes) (cfg : Config)
    (sched : List Tid) :
    ((handleConnection w wallet cfg sched).halted = true ↔
      ∃ msg, Event.fatal msg ∈ (handleConnection w wallet cfg sched).trace) ∧
    ((handleConnection w wallet cfg sched).halted = true ↔
      (Event.netDial "tcp" (remoteAddr cfg) false ∈ (handleConnection w wallet cfg sched).trace ∨
       (handleConnection w wallet cfg sched).hpc = .writeFailed ∨
       Event.copyReturn .targetToAccepted false ∈ (handleConnection w wallet cfg sched).trace ∨
       Event.copyReturn .acceptedToTarget false ∈
         (handleConnection w wallet cfg sched).trace)) ∧
    ((∃ e, w.dial (remoteAddr cfg) = .error e) → Tid.handler ∈ sched →
      (handleConnection w wallet cfg sched).halted = true ∧
      (handleConnection w wallet cfg sched).hpc = .dialFailed) ∧
    (w.dial (remoteAddr cfg) = .ok () → (∃ n rest, w.targetWrites = .fail n :: rest) →
      2 ≤ sched.count Tid.handler →
      (handleConnection w wallet cfg sched).halted = true ∧
      (handleConnection w wallet cfg sched).hpc = .writeFailed) ∧
    (∀ d, Event.copyReturn d false ∈ (handleConnection w wallet cfg sched).trace →
      (handleConnection w wallet cfg sched).halted = true) ∧
    (Event.copyReturn .targetToAccepted true ∈ (handleConnection w wallet cfg sched).trace →
      Event.copyReturn .acceptedToTarget true ∈ (handleConnection w wallet cfg sched).trace →
      (handleConnection w wallet cfg sched).halted = false) := by
  have h := inv_run w wallet cfg sched
  have l := logged_run w wallet cfg sched
  refine ⟨l.fatal, ?_, ?_, ?_, ?_, ?_⟩
  · rw [l.dialFailed, l.firstFailed, l.secondFailed]
    exact h.halt
  · rintro ⟨e, he⟩ hm
    exact dial_failure_halts w wallet cfg e he sched _ rfl rfl rfl rfl hm
  · rintro hd ⟨n, rest, hw⟩ hm
    exact write_failure_halts w wallet cfg n rest hd sched _ hw rfl rfl rfl rfl hm
  · intro d hd
    cases d with
    | targetToAccepted => exact h.halt.2 (Or.inr (Or.inr (Or.inl (l.firstFailed.1 hd))))
    | acceptedToTarget => exact h.halt.2 (Or.inr (Or.inr (Or.inr (l.secondFailed.1 hd))))
  · intro h1 h2
    have h1 := l.firstEnded.1 h1
    have h2 := l.secondEnded.1 h2
    have hne : (handleConnection w wallet cfg sched).r2 ≠ .idle := by simp [h2]
    have hph := h.second hne
    cases hh : (handleConnection w wallet cfg sched).halted with
    | false => rfl
    | true =>
      have := h.halt.1 hh
      rcases hph with hp | hp <;> simp [hp, h1, h2] at this

/-- C5, at a refused dial, at a wallet write that fails, at a relay whose write
fails, and at a run in which both relays reach the end of their stream. -/
theorem forward_errors_fatal_sample :
    ((handleConnection refusedWorld walletBytes dbConfig [.handler]).halted = true ∧
      (handleConnection refusedWorld walletBytes dbConfig [.handler]).hpc = .dialFailed) ∧
    ((handleConnection stalledWorld walletBytes dbConfig [.handler, .handler]).halted = true ∧
      (handleConnection stalledWorld walletBytes dbConfig [.handler, .handler]).hpc
        = .writeFailed) ∧
    (handleConnection resetWorld walletBytes dbConfig
      [.handler, .handler, .handler, .handler, .relay .acceptedToTarget,
       .relay .acceptedToTarget]).halted = true ∧
    (handleConnection queryWorld walletBytes dbConfig
      [.handler, .handler, .handler, .handler, .relay .acceptedToTarget,
       .relay .acceptedToTarget, .relay .acceptedToTarget, .relay .targetToAccepted,
       .relay .targetToAccepted, .relay .targetToAccepted]).halted = false :=
  ⟨(forward_errors_fatal refusedWorld walletBytes dbConfig [.handler]).2.2.1
      ⟨"connection refused", rfl⟩ (by decide),
   (forward_errors_fatal stalledWorld walletBytes dbConfig [.handler, .handler]).2.2.2.1
      rfl ⟨3, [], rfl⟩ (by decide),
   (forward_errors_fatal resetWorld walletBytes dbConfig
      [.handler, .handler, .handler, .handler, .relay .acceptedToTarget,
       .relay .acceptedToTarget]).2.2.2.2.1 .acceptedToTarget (by decide),
   (forward_errors_fatal queryWorld walletBytes dbConfig
      [.handler, .handler, .handler, .handler, .relay .acceptedToTarget,
       .relay .acceptedToTarget, .relay .acceptedToTarget, .relay .targetToAccepted,
       .relay .targetToAccepted, .relay .targetToAccepted]).2.2.2.2.2 (by decide) (by decide)⟩

/-- C3 fails on the code: with a reachable target and a client that sends
`SELECT 1`, the body of `handleConnection` runs to its end and the deferred
`target.Close()` closes the target while both relays are still before their first
read; the relay towards the target then reads `SELECT 1`, its write on the closed
target fails and `log.Fatalf` ends the process with the target holding the wallet
only; the accepted stream is never closed. -/
theorem target_closed_under_relays :
    (handleConnection queryWorld walletBytes dbConfig
      [.handler, .handler, .handler, .handler, .handler]).targetClosed = true ∧
    (handleConnection queryWorld walletBytes dbConfig
      [.handler, .handler, .handler, .handler, .handler]).r1 = .reading ∧
    (handleConnection queryWorld walletBytes dbConfig
      [.handler, .handler, .handler, .handler, .handler]).r2 = .reading ∧
    (handleConnection queryWorld walletBytes dbConfig
      [.handler, .handler, .handler, .handler, .handler]).trace =
      [.netDial "tcp" "db.example.com:1522" true, .write .target walletBytes true,
       .goRelay .targetToAccepted, .goRelay .acceptedToTarget, .close .target] ∧
    (handleConnection queryWorld walletBytes dbConfig
      [.handler, .handler, .handler, .handler, .handler, .relay .acceptedToTarget,
       .relay .acceptedToTarget]).trace =
      [.netDial "tcp" "db.example.com:1522" true, .write .target walletBytes true,
       .goRelay .targetToAccepted, .goRelay .acceptedToTarget, .close .target,
       .write .target select1 false, .copyReturn .acceptedToTarget false,
       .fatal "Failed to copy data from connection to target"] ∧
    (handleConnection queryWorld walletBytes dbConfig
      [.handler, .handler, .handler, .handler, .handler, .relay .acceptedToTarget,
       .relay .acceptedToTarget]).targetGot = walletBytes ∧
    (handleConnection queryWorld walletBytes dbConfig
      [.handler, .handler, .handler, .handler, .handler, .relay .targetToAccepted]).trace =
      [.netDial "tcp" "db.example.com:1522" true, .write .target walletBytes true,
       .goRelay .targetToAccepted, .goRelay .acceptedToTarget, .close .target,
       .copyReturn .targetToAccepted false,
       .fatal "Failed to copy data from target to connection"] ∧
    closed .accepted (handleConnection queryWorld walletBytes dbConfig
      [.handler, .handler, .handler, .handler, .handler, .relay .acceptedToTarget,
       .relay .acceptedToTarget]).trace = 0 := by
  decide

end SshTunnel
